import Mathlib

/-!
Shallow embedding of the `emd_hitme` combat-collision subsystem
(`src/lib.rs`, `src/hitboxes.rs`, `src/hurtboxes.rs`, `src/tracker.rs`).

Modelling conventions:
* hecs `Entity` identifiers are naturals; component stores (`World`) and Rust
  `HashMap`s are association lists (first entry with a key wins, `insert`
  overwrites in place), `f32` time values are rationals.
* Fallible code is `Option`/`Except`; a Rust `.unwrap()` that can panic is a
  `bind` whose `none` result models the panic.
* The registered callbacks / filters of `HitmeConfig` are function pointers in
  Rust; filters are modelled as pure predicates on the hit context and on-hit
  callbacks are identified by their registration position, invocations being
  collected in a log.  The spatial overlap query (the physics collaborator) is
  an association list `World.colliding`.
-/

/-- Entity identifier (hecs `Entity`). -/
abbrev Entity := Nat

/-- Association-list lookup, modelling `HashMap::get`. -/
def assocGet {α : Type} [DecidableEq α] {β : Type} : List (α × β) → α → Option β
  | [], _ => none
  | (k, v) :: rest, key => if k = key then some v else assocGet rest key

/-- Insert-or-overwrite, modelling `HashMap::insert`. -/
def assocSet {α : Type} [DecidableEq α] {β : Type} : List (α × β) → α → β → List (α × β)
  | [], key, val => [(key, val)]
  | (k, v) :: rest, key, val =>
    if k = key then (k, val) :: rest else (k, v) :: assocSet rest key val

/-- Apply `g` to the value stored at `key`; no-op when the key is absent
(models `get_mut` followed by a mutation). -/
def assocModify {α : Type} [DecidableEq α] {β : Type} :
    List (α × β) → α → (β → β) → List (α × β)
  | [], _, _ => []
  | (k, v) :: rest, key, g =>
    if k = key then (k, g v) :: rest else (k, v) :: assocModify rest key g

/-- Apply `g` to the element at index `i`; no-op out of range
(models `Vec::get_mut` followed by a mutation). -/
def listModify {α : Type} : List α → Nat → (α → α) → List α
  | [], _, _ => []
  | a :: rest, 0, g => g a :: rest
  | a :: rest, i + 1, g => a :: listModify rest i g

/-- `Hitbox` component (`src/hitboxes.rs`).  Collider data is omitted: spatial
queries belong to the physics collaborator, modelled by `World.colliding`. -/
structure Hitbox where
  active : Bool
  activate_after : Option ℚ
  deactivate_after : Option ℚ
  elapsed_time : ℚ
  parent_set : Entity
  cooldown_per_entity : Option ℚ
  damaged_entities : List (Entity × ℚ)
deriving DecidableEq

/-- `Hitbox::is_one_time`. -/
def Hitbox.is_one_time (h : Hitbox) : Bool :=
  h.activate_after.isSome || h.deactivate_after.isSome

/-- `Hitbox::is_active`. -/
def Hitbox.is_active (h : Hitbox) : Bool := h.active

/-- `Hitbox::deactivate`. -/
def Hitbox.deactivate (h : Hitbox) : Hitbox := { h with active := false }

/-- `Hitbox::activate` (early-returns when already active). -/
def Hitbox.activate (h : Hitbox) : Hitbox :=
  if h.active then h else { h with active := true }

/-- `Hitbox::refresh`: clears the damaged-entities ledger. -/
def Hitbox.refresh (h : Hitbox) : Hitbox := { h with damaged_entities := [] }

/-- `Hitbox::can_damage_entity`. -/
def Hitbox.can_damage_entity (h : Hitbox) (other_entity : Entity) : Bool :=
  match assocGet h.damaged_entities other_entity with
  | some delta =>
    match h.cooldown_per_entity with
    | some cd => decide (cd ≤ delta)
    | none => true
  | none => true

/-- `Hitbox::add_damaged_entity`: record a hit with elapsed time `0`. -/
def Hitbox.add_damaged_entity (h : Hitbox) (e : Entity) : Hitbox :=
  { h with damaged_entities := assocSet h.damaged_entities e 0 }

/-- Per-hitbox action of `hitbox_damaged_entity_delta_system`
(`src/hitboxes.rs` 631-639): every ledger entry is advanced by `delta`. -/
def Hitbox.damagedDeltaTick (h : Hitbox) (delta : ℚ) : Hitbox :=
  { h with damaged_entities := h.damaged_entities.map (fun p => (p.1, p.2 + delta)) }

/-- Per-hitbox action of `hitbox_one_time_system` (`src/hitboxes.rs` 641-668):
non-one-time hitboxes are filtered out; otherwise elapsed time advances and the
activation timer is checked before (and instead of) the deactivation timer. -/
def Hitbox.oneTimeTick (h : Hitbox) (delta : ℚ) : Hitbox :=
  if h.is_one_time then
    let h1 : Hitbox := { h with elapsed_time := h.elapsed_time + delta }
    match h1.activate_after with
    | some trigger =>
      if trigger ≤ h1.elapsed_time then { h1.activate with activate_after := none } else h1
    | none =>
      match h1.deactivate_after with
      | some trigger =>
        if trigger ≤ h1.elapsed_time then { h1.deactivate with deactivate_after := none }
        else h1
      | none => h1
  else h

/-- The `cooldown_per_entity` field produced by `Hitbox::from_toml`
(`src/hitboxes.rs` 518-525): defaults to `1.0` when the config field is absent. -/
def fromTomlCooldown (specified : Option ℚ) : Option ℚ :=
  some (specified.getD 1)

/-- `HitboxSequenceFrameTag` (`src/hitboxes.rs`); the toml payload is opaque,
modelled as a string. -/
structure HitboxSequenceFrameTag where
  triggered : Bool
  name : String
  delay : ℚ
  data : String
deriving DecidableEq

/-- `HitboxSequenceFrame` (`src/hitboxes.rs`). -/
structure HitboxSequenceFrame where
  duration : ℚ
  name : Option String
  names : Option (List String)
  delay : ℚ
  tags : List HitboxSequenceFrameTag
  active : Bool
deriving DecidableEq

/-- `HitboxSequenceFrame::reset`. -/
def HitboxSequenceFrame.reset (f : HitboxSequenceFrame) : HitboxSequenceFrame :=
  { f with active := false, tags := f.tags.map (fun t => { t with triggered := false }) }

/-- `HitboxSequenceFrame::get_hitboxes`: resolve `name` then `names` against the
set's name-to-entity map, silently skipping unresolvable names. -/
def HitboxSequenceFrame.get_hitboxes (f : HitboxSequenceFrame)
    (hitboxes : List (String × Entity)) : List Entity :=
  (match f.name with
   | some n => (assocGet hitboxes n).toList
   | none => []) ++
  (match f.names with
   | some ns => ns.filterMap (fun n => assocGet hitboxes n)
   | none => [])

/-- `HitboxSequenceEvent` (`src/hitboxes.rs`). -/
inductive HitboxSequenceEvent where
  | hitboxDeactivated (hitbox : Entity)
  | hitboxActivated (hitbox : Entity)
  | tagTriggered (name : String) (data : String)
  | finished
deriving DecidableEq

/-- `HitboxSequenceEvent::get_activated_hitboxes`. -/
def get_activated_hitboxes (events : List HitboxSequenceEvent) : List Entity :=
  events.filterMap (fun e =>
    match e with
    | .hitboxActivated h => some h
    | _ => none)

/-- `HitboxSequenceEvent::get_deactivated_hitboxes`. -/
def get_deactivated_hitboxes (events : List HitboxSequenceEvent) : List Entity :=
  events.filterMap (fun e =>
    match e with
    | .hitboxDeactivated h => some h
    | _ => none)

/-- `ActiveSequenceData` (`src/hitboxes.rs`): the playback cursor. -/
structure ActiveSequenceData where
  name : String
  frame : Nat
  elapsed_time : ℚ
deriving DecidableEq

/-- The timeline library of a group: name to ordered frame list. -/
abbrev SeqMap := List (String × List HitboxSequenceFrame)

/-- `ActiveSequenceData::new`. -/
def ActiveSequenceData.new (name : String) : ActiveSequenceData :=
  ⟨name, 0, 0⟩

/-- The frame currently under the cursor, when the timeline name resolves and
the index is in range. -/
def getCurrentFrame (s : SeqMap) (c : ActiveSequenceData) : Option HitboxSequenceFrame :=
  (assocGet s c.name).bind (fun frames => frames.get? c.frame)

/-- `ActiveSequenceData::get_current_active_hitboxes`. -/
def ActiveSequenceData.get_current_active_hitboxes (c : ActiveSequenceData)
    (s : SeqMap) (hitboxes : List (String × Entity)) : List Entity :=
  match getCurrentFrame s c with
  | some f => f.get_hitboxes hitboxes
  | none => []

/-- `ActiveSequenceData::is_current_frame_active`. -/
def ActiveSequenceData.is_current_frame_active (c : ActiveSequenceData) (s : SeqMap) : Bool :=
  match getCurrentFrame s c with
  | some f => f.active
  | none => false

/-- Mutate the frame at `(nm, i)` in the timeline library; no-op when either
lookup fails (models `get_mut` chains in the source). -/
def setFrame (s : SeqMap) (nm : String) (i : Nat)
    (g : HitboxSequenceFrame → HitboxSequenceFrame) : SeqMap :=
  assocModify s nm (fun frames => listModify frames i g)

/-- The tag loop of `ActiveSequenceData::progress`: fire each not-yet-triggered
tag whose delay (relative to frame start plus the frame's own delay) has
elapsed, in order. -/
def processTags (elapsed fdelay : ℚ) :
    List HitboxSequenceFrameTag →
      List HitboxSequenceEvent × List HitboxSequenceFrameTag
  | [] => ([], [])
  | tag :: rest =>
    let r := processTags elapsed fdelay rest
    if tag.delay + fdelay ≤ elapsed ∧ tag.triggered = false then
      (.tagTriggered tag.name tag.data :: r.1, { tag with triggered := true } :: r.2)
    else (r.1, tag :: r.2)

/-- `ActiveSequenceData::progress` (`src/hitboxes.rs` 346-395).  Returns the
emitted events together with the updated timeline library and cursor. -/
def ActiveSequenceData.progress (c : ActiveSequenceData) (s : SeqMap)
    (hitboxes : List (String × Entity)) (delta : ℚ) :
    List HitboxSequenceEvent × SeqMap × ActiveSequenceData :=
  let fdelay := ((getCurrentFrame s c).map HitboxSequenceFrame.delay).getD 0
  let c1 : ActiveSequenceData := ⟨c.name, c.frame, c.elapsed_time + delta⟩
  let actEvs :=
    if fdelay ≤ c1.elapsed_time ∧ c1.is_current_frame_active s = false then
      (c1.get_current_active_hitboxes s hitboxes).map .hitboxActivated
    else []
  let s1 :=
    if fdelay ≤ c1.elapsed_time ∧ c1.is_current_frame_active s = false then
      setFrame s c1.name c1.frame (fun f => { f with active := true })
    else s
  match getCurrentFrame s1 c1 with
  | none => (actEvs, s1, c1)
  | some f =>
    let tr := processTags c1.elapsed_time fdelay f.tags
    let s2 := setFrame s1 c1.name c1.frame (fun g => { g with tags := tr.2 })
    if f.duration + fdelay ≤ c1.elapsed_time then
      let deEvs := (c1.get_current_active_hitboxes s2 hitboxes).map .hitboxDeactivated
      let s3 := setFrame s2 c1.name c1.frame (fun g => { g with active := false })
      let s4 := setFrame s3 c1.name c1.frame HitboxSequenceFrame.reset
      let c2 : ActiveSequenceData := ⟨c1.name, c1.frame + 1, 0⟩
      let finEvs :=
        match assocGet s4 c1.name with
        | some fs => if fs.length ≤ c2.frame then [HitboxSequenceEvent.finished] else []
        | none => []
      (actEvs ++ tr.1 ++ deEvs ++ finEvs, s4, c2)
    else (actEvs ++ tr.1, s2, c1)

/-- Iterated `progress` calls; each trace entry records the cursor's frame
index before the call and the events the call emitted. -/
def progressRun (hitboxes : List (String × Entity)) :
    SeqMap → ActiveSequenceData → List ℚ → List (Nat × List HitboxSequenceEvent)
  | _, _, [] => []
  | s, c, delta :: ds =>
    let r := c.progress s hitboxes delta
    (c.frame, r.1) :: progressRun hitboxes r.2.1 r.2.2 ds

/-- `HitboxSet` component (`src/hitboxes.rs`). -/
structure HitboxSet where
  hitboxes : List (String × Entity)
  owner : Entity
  sequences : SeqMap
  active_sequence : Option ActiveSequenceData
deriving DecidableEq

/-- `HitboxSet::has_sequence`. -/
def HitboxSet.has_sequence (hs : HitboxSet) (name : String) : Bool :=
  (assocGet hs.sequences name).isSome

/-- `HitboxSet::reset_sequences`: reset every frame of every timeline. -/
def HitboxSet.reset_sequences (hs : HitboxSet) : HitboxSet :=
  { hs with sequences := hs.sequences.map (fun p => (p.1, p.2.map HitboxSequenceFrame.reset)) }

/-- `HitboxSet::start_sequence` (`src/hitboxes.rs` 104-121).  The first
component is the `Result`; the second is the set after the call (unchanged on
error, since the source returns before mutating). -/
def HitboxSet.start_sequence (hs : HitboxSet) (name : String) :
    Except String Unit × HitboxSet :=
  if hs.has_sequence name then
    (Except.ok (),
      ({ hs with active_sequence := some (ActiveSequenceData.new name) }).reset_sequences)
  else
    (Except.error ("Hitbox set does not have sequence " ++ name), hs)

/-- `Hurtbox` component (`src/hurtboxes.rs`); collider data omitted as for
`Hitbox`. -/
structure Hurtbox where
  active : Bool
  parent_set : Entity
deriving DecidableEq

/-- `HurtboxSet` component (`src/hurtboxes.rs`). -/
structure HurtboxSet where
  hurtboxes : List Entity
  owner : Entity
deriving DecidableEq

/-- `SimpleTranslationTracker` (`src/tracker.rs`); only the remappable target
matters for the claims, the translation offset is omitted. -/
structure SimpleTranslationTracker where
  target : Entity
deriving DecidableEq

/-- The component stores the subsystem touches, plus the physics collaborator's
overlap relation (`get_colliding_entities`) as data. -/
structure World where
  hitboxes : List (Entity × Hitbox)
  hurtboxes : List (Entity × Hurtbox)
  hitboxSets : List (Entity × HitboxSet)
  hurtboxSets : List (Entity × HurtboxSet)
  trackers : List (Entity × SimpleTranslationTracker)
  colliding : List (Entity × List Entity)
deriving DecidableEq

/-- `get_hurtbox_owner` (`src/hurtboxes.rs` 77-89). -/
def get_hurtbox_owner (w : World) (hurtbox_id : Entity) : Option Entity :=
  (assocGet w.hurtboxes hurtbox_id).bind (fun h =>
    (assocGet w.hurtboxSets h.parent_set).map HurtboxSet.owner)

/-- `get_hitbox_owner` (`src/hitboxes.rs` 445-457). -/
def get_hitbox_owner (w : World) (hitbox_id : Entity) : Option Entity :=
  (assocGet w.hitboxes hitbox_id).bind (fun h =>
    (assocGet w.hitboxSets h.parent_set).map HitboxSet.owner)

/-- `get_all_active_hitboxes` (`src/hitboxes.rs` 610-616). -/
def get_all_active_hitboxes (w : World) : List Entity :=
  w.hitboxes.filterMap (fun p => if p.2.active then some p.1 else none)

/-- `get_colliding_active_hurtboxes` (`src/hurtboxes.rs` 226-229): physics
overlap query filtered to entities bearing an active `Hurtbox`. -/
def get_colliding_active_hurtboxes (w : World) (id : Entity) : List Entity :=
  ((assocGet w.colliding id).getD []).filter (fun e =>
    match assocGet w.hurtboxes e with
    | some h => h.active
    | none => false)

/-- The per-pair filter closure inside
`get_active_hitbox_to_active_hurtbox_collisions` (`src/lib.rs` 246-272).
Every `.unwrap()` of the source is a `bind`; `none` models the panic. -/
def gatherFilter (w : World) (hitbox_id hurtbox_id : Entity) : Option Bool :=
  (assocGet w.hurtboxes hurtbox_id).bind fun hb =>
  (assocGet w.hurtboxSets hb.parent_set).bind fun hbs =>
  (assocGet w.hitboxes hitbox_id).bind fun hx =>
  (assocGet w.hitboxSets hx.parent_set).bind fun hxs =>
  some (!(hxs.owner == hbs.owner) && hx.can_damage_entity hbs.owner)

/-- Monadic filter over `Option`, modelling a filter whose predicate may
panic. -/
def filterOpt {α : Type} (p : α → Option Bool) : List α → Option (List α)
  | [] => some []
  | a :: rest =>
    (p a).bind fun b => (filterOpt p rest).map fun r => if b then a :: r else r

/-- The loop of `get_active_hitbox_to_active_hurtbox_collisions` over the
active hitboxes; collecting into a `HashSet` is modelled by `dedup`. -/
def gatherAll (w : World) : List Entity → Option (List (Entity × List Entity))
  | [] => some []
  | hid :: rest =>
    (filterOpt (gatherFilter w hid) (get_colliding_active_hurtboxes w hid)).bind fun hbs =>
    (gatherAll w rest).map fun tail => (hid, hbs.dedup) :: tail

/-- `get_active_hitbox_to_active_hurtbox_collisions` (`src/lib.rs` 238-293);
`none` models a panic of one of its `.unwrap()` calls. -/
def get_active_hitbox_to_active_hurtbox_collisions (w : World) :
    Option (List (Entity × List Entity)) :=
  gatherAll w (get_all_active_hitboxes w)

/-- The hit context handed to filters and callbacks (`src/lib.rs`). -/
structure OnHitContext where
  hit_entity : Entity
  hurt_entity : Entity
  hurtbox : Entity
  hitbox : Entity
deriving DecidableEq

/-- `HitmeConfig`: hit filters are pure predicates on the context; on-hit
callbacks are identified by registration position (invocations are logged). -/
structure HitmeConfig where
  hit_filter_fns : List (OnHitContext → Bool)
  on_hit_fns : List Nat

/-- `add_to_damaged_list` (`src/lib.rs` 168-172): no-op when the hitbox
component is missing. -/
def add_to_damaged_list (w : World) (hitbox_id damaged_entity : Entity) : World :=
  { w with hitboxes :=
      assocModify w.hitboxes hitbox_id (fun h => h.add_damaged_entity damaged_entity) }

/-- Guard of the per-callback body of `emd_hitme_system`: whether, in world
`w`, a callback considered for this (hitbox, hurtbox) pair would fire (owner
lookups succeed, every filter passes, the cooldown ledger allows the hit). -/
def dispatchFires (cfg : HitmeConfig) (w : World) (hitbox_id hurtbox : Entity) : Bool :=
  match get_hurtbox_owner w hurtbox with
  | none => false
  | some hurt =>
    match get_hitbox_owner w hitbox_id with
    | none => false
    | some hit =>
      (!(cfg.hit_filter_fns.any (fun flt => !(flt ⟨hit, hurt, hurtbox, hitbox_id⟩)))) &&
      (((assocGet w.hitboxes hitbox_id).map (fun h => h.can_damage_entity hurt)).getD false)

/-- Recursion over the registered callback list for one (hitbox, hurtbox)
pair, threading the world exactly as the Rust `for_each` does. -/
def dispatchCallbacksAux (cfg : HitmeConfig) (hitbox_id hurtbox : Entity) :
    List Nat → World → World × List (Nat × OnHitContext)
  | [], w => (w, [])
  | fid :: rest, w =>
    match get_hurtbox_owner w hurtbox with
    | none => dispatchCallbacksAux cfg hitbox_id hurtbox rest w
    | some hurt =>
      match get_hitbox_owner w hitbox_id with
      | none => dispatchCallbacksAux cfg hitbox_id hurtbox rest w
      | some hit =>
        let can_damage :=
          ((assocGet w.hitboxes hitbox_id).map
            (fun h => h.can_damage_entity hurt)).getD false
        let ctx : OnHitContext := ⟨hit, hurt, hurtbox, hitbox_id⟩
        let pass := !(cfg.hit_filter_fns.any (fun flt => !(flt ctx)))
        if pass && can_damage then
          let r := dispatchCallbacksAux cfg hitbox_id hurtbox rest
            (add_to_damaged_list w hitbox_id hurt)
          (r.1, (fid, ctx) :: r.2)
        else dispatchCallbacksAux cfg hitbox_id hurtbox rest w

/-- The innermost loop of `emd_hitme_system` (`src/lib.rs` 122-159) for one
(hitbox, hurtbox) pair: each registered on-hit callback is considered in
registration order; owner lookups, filters and the cooldown check are
re-evaluated before each, and a fired hit is recorded immediately. -/
def dispatchCallbacks (cfg : HitmeConfig) (w : World) (hitbox_id hurtbox : Entity) :
    World × List (Nat × OnHitContext) :=
  dispatchCallbacksAux cfg hitbox_id hurtbox cfg.on_hit_fns w

/-- Recursion over the hurtboxes colliding with one hitbox. -/
def dispatchHitboxAux (cfg : HitmeConfig) (hitbox_id : Entity) :
    List Entity → World → World × List (Nat × OnHitContext)
  | [], w => (w, [])
  | hb :: rest, w =>
    let r := dispatchCallbacks cfg w hitbox_id hb
    let r2 := dispatchHitboxAux cfg hitbox_id rest r.1
    (r2.1, r.2 ++ r2.2)

/-- The middle loop of `emd_hitme_system`: all hurtboxes colliding with one
hitbox. -/
def dispatchHitbox (cfg : HitmeConfig) (w : World) (hitbox_id : Entity)
    (hurtbox_ids : List Entity) : World × List (Nat × OnHitContext) :=
  dispatchHitboxAux cfg hitbox_id hurtbox_ids w

/-- Recursion over the gathered collision map. -/
def emdDispatchAux (cfg : HitmeConfig) :
    List (Entity × List Entity) → World → World × List (Nat × OnHitContext)
  | [], w => (w, [])
  | pr :: rest, w =>
    let r := dispatchHitbox cfg w pr.1 pr.2
    let r2 := emdDispatchAux cfg rest r.1
    (r2.1, r.2 ++ r2.2)

/-- The outer dispatch loop of `emd_hitme_system` (`src/lib.rs` 120-161) over
the gathered collision map. -/
def emdDispatch (cfg : HitmeConfig) (w : World)
    (collisions : List (Entity × List Entity)) : World × List (Nat × OnHitContext) :=
  emdDispatchAux cfg collisions w

/-- `hitbox_one_time_system` over the world (delta may differ per entity via
`get_delta_for_entity`). -/
def hitbox_one_time_system (w : World) (delta : Entity → ℚ) : World :=
  { w with hitboxes := w.hitboxes.map (fun p => (p.1, p.2.oneTimeTick (delta p.1))) }

/-- `hitbox_damaged_entity_delta_system` over the world. -/
def hitbox_damaged_entity_delta_system (w : World) (delta : ℚ) : World :=
  { w with hitboxes := w.hitboxes.map (fun p => (p.1, p.2.damagedDeltaTick delta)) }

/-- The `HurtboxSet` branch of `merge_handler` (`src/lib.rs` 195-211): for each
old member id present in the map, the new id is pushed only when the list
already contains it (the source's `contains(..).then(push ..)`), and the owner
is remapped. -/
def merge_hurtbox_set (m : List (Entity × Entity)) (hs : HurtboxSet) : HurtboxSet :=
  let lst := hs.hurtboxes.foldl
    (fun acc h =>
      match assocGet m h with
      | some e => if acc.contains e then acc ++ [e] else acc
      | none => acc)
    hs.hurtboxes
  { hurtboxes := lst, owner := (assocGet m hs.owner).getD hs.owner }

/-- The `HitboxSet` branch of `merge_handler` (`src/lib.rs` 212-225): each
named member whose id is in the map is re-inserted under its name with the new
id, and the owner is remapped. -/
def merge_hitbox_set (m : List (Entity × Entity)) (hs : HitboxSet) : HitboxSet :=
  let mp := hs.hitboxes.foldl
    (fun acc p =>
      match assocGet m p.2 with
      | some e => assocSet acc p.1 e
      | none => acc)
    hs.hitboxes
  { hs with hitboxes := mp, owner := (assocGet m hs.owner).getD hs.owner }

/-- `merge_handler` (`src/lib.rs` 174-235): the reference-rewriting pass run
when the host merges worlds, applied to every component store. -/
def merge_handler (m : List (Entity × Entity)) (w : World) : World :=
  { w with
    hitboxes := w.hitboxes.map (fun p => (p.1,
      match assocGet m p.2.parent_set with
      | some e => { p.2 with parent_set := e }
      | none => p.2)),
    hurtboxes := w.hurtboxes.map (fun p => (p.1,
      match assocGet m p.2.parent_set with
      | some e => { p.2 with parent_set := e }
      | none => p.2)),
    hurtboxSets := w.hurtboxSets.map (fun p => (p.1, merge_hurtbox_set m p.2)),
    hitboxSets := w.hitboxSets.map (fun p => (p.1, merge_hitbox_set m p.2)),
    trackers := w.trackers.map (fun p => (p.1,
      match assocGet m p.2.target with
      | some e => { target := e }
      | none => p.2)) }

/-! Concrete data used by witnesses and counterexamples. -/

/-- An always-ready strike hitbox belonging to set `ps` with per-entity
cooldown `cd` and an empty ledger. -/
def plainHitbox (ps : Entity) (cd : ℚ) : Hitbox :=
  { active := true, activate_after := none, deactivate_after := none, elapsed_time := 0,
    parent_set := ps, cooldown_per_entity := some cd, damaged_entities := [] }

/-- A hitbox with cooldown `1` whose ledger already holds entity `1` at elapsed
time `0` (as right after a recorded hit). -/
def hC5 : Hitbox :=
  { active := true, activate_after := none, deactivate_after := none, elapsed_time := 0,
    parent_set := 11, cooldown_per_entity := some 1, damaged_entities := [(1, 0)] }

/-- A one-time hitbox with both timers pending. -/
def hC8 : Hitbox :=
  { active := false, activate_after := some (1/2), deactivate_after := some 2,
    elapsed_time := 0, parent_set := 11, cooldown_per_entity := some 1,
    damaged_entities := [] }

/-- A frame whose transient flags are set, to observe the reset done by
`start_sequence`. -/
def frameC6 : HitboxSequenceFrame :=
  { duration := 2, name := some "blade", names := none, delay := 0,
    tags := [{ triggered := true, name := "fx", delay := 0, data := "d" }], active := true }

/-- A group with two timelines, both dirty. -/
def hsC6 : HitboxSet :=
  { hitboxes := [("blade", 7)], owner := 3,
    sequences := [("swing", [frameC6]), ("other", [frameC6])],
    active_sequence := none }

/-- The spec scenario frame: delay `0.2`, duration `1.0`, one hitbox named
`x`. -/
def frameC7 : HitboxSequenceFrame :=
  { duration := 1, name := some "x", names := none, delay := 1/5, tags := [], active := false }

/-- One-timeline library holding `frameC7`. -/
def sC7 : SeqMap := [("swing", [frameC7])]

/-- Name resolution map for `frameC7`. -/
def hbC7 : List (String × Entity) := [("x", 7)]

/-- A cursor whose frame index is past the end of its timeline. -/
def cC10 : ActiveSequenceData := ⟨"swing", 5, 1⟩

/-- A world holding one hurtbox group `{hurtboxes = [1], owner = 5}`. -/
def wC3 : World :=
  { hitboxes := [], hurtboxes := [], hitboxSets := [],
    hurtboxSets := [(9, ⟨[1], 5⟩)],
    trackers := [], colliding := [] }

/-- Config with two registered on-hit callbacks and no filters. -/
def cfgC1 : HitmeConfig := { hit_filter_fns := [], on_hit_fns := [0, 1] }

/-- Hitbox `1` (group `11`, owner `100`, cooldown `1`) overlapping active
hurtbox `10` (group `12`, owner `200`). -/
def wC1 : World :=
  { hitboxes := [(1, plainHitbox 11 1)],
    hurtboxes := [(10, ⟨true, 12⟩)],
    hitboxSets := [(11, ⟨[("a", 1)], 100, [], none⟩)],
    hurtboxSets := [(12, ⟨[10], 200⟩)],
    trackers := [], colliding := [(1, [10])] }

/-- Config with one registered on-hit callback and no filters. -/
def cfgC2 : HitmeConfig := { hit_filter_fns := [], on_hit_fns := [0] }

/-- Active hitbox `1` colliding with active hurtbox `10` whose `parent_set`
(`99`) has no `HurtboxSet` component: the gather phase's `.unwrap()` panics. -/
def wC2 : World :=
  { hitboxes := [(1, plainHitbox 11 1)],
    hurtboxes := [(10, ⟨true, 99⟩)],
    hitboxSets := [(11, ⟨[("a", 1)], 100, [], none⟩)],
    hurtboxSets := [],
    trackers := [], colliding := [(1, [10])] }

/-- Config with one registered on-hit callback and no filters. -/
def cfgC4 : HitmeConfig := { hit_filter_fns := [], on_hit_fns := [0] }

/-- Two active hitboxes `1`,`2` of owner `100` (cooldown `1`) both overlapping
the single active hurtbox `10` of owner `200`. -/
def wC4 : World :=
  { hitboxes := [(1, plainHitbox 11 1), (2, plainHitbox 11 1)],
    hurtboxes := [(10, ⟨true, 12⟩)],
    hitboxSets := [(11, ⟨[("a", 1), ("b", 2)], 100, [], none⟩)],
    hurtboxSets := [(12, ⟨[10], 200⟩)],
    trackers := [], colliding := [(1, [10]), (2, [10])] }

/-- The collision list the gather phase produces for `wC4`. -/
def collsC4 : List (Entity × List Entity) := [(1, [10]), (2, [10])]

/-- One active hitbox of owner `100` with cooldown `0`, overlapping two
distinct active hurtboxes `10`, `20` that both belong to owner `200`. -/
def wC4z : World :=
  { hitboxes := [(1, plainHitbox 5 0)],
    hurtboxes := [(10, ⟨true, 6⟩), (20, ⟨true, 6⟩)],
    hitboxSets := [(5, ⟨[("a", 1)], 100, [], none⟩)],
    hurtboxSets := [(6, ⟨[10, 20], 200⟩)],
    trackers := [], colliding := [(1, [10, 20])] }

/-- Two-owner overlap world used to instantiate the no-self-damage theorem. -/
def wC9 : World :=
  { hitboxes := [(1, plainHitbox 11 1)],
    hurtboxes := [(10, ⟨true, 12⟩)],
    hitboxSets := [(11, ⟨[("a", 1)], 100, [], none⟩)],
    hurtboxSets := [(12, ⟨[10], 200⟩)],
    trackers := [], colliding := [(1, [10])] }

/-- Config used with `wC9`. -/
def cfgC9 : HitmeConfig := { hit_filter_fns := [], on_hit_fns := [0] }

/-! General lemmas about the association-list and list-update helpers. -/

theorem assocGet_assocModify {α β : Type} [DecidableEq α] (l : List (α × β)) (k x : α)
    (g : β → β) :
    assocGet (assocModify l k g) x =
      if k = x then (assocGet l k).map g else assocGet l x := by
  induction l with
  | nil => simp [assocGet, assocModify]
  | cons p rest ih =>
    obtain ⟨a, b⟩ := p
    by_cases hak : a = k
    · subst hak
      by_cases hax : a = x
      · subst hax
        simp [assocGet, assocModify]
      · simp [assocGet, assocModify, hax]
    · by_cases hax : a = x
      · subst hax
        have hka : ¬ k = a := fun h => hak h.symm
        simp [assocGet, assocModify, hak, hka]
      · simp [assocGet, assocModify, hak, hax, ih]

theorem assocGet_assocModify_self {α β : Type} [DecidableEq α] (l : List (α × β)) (k : α)
    (g : β → β) :
    assocGet (assocModify l k g) k = (assocGet l k).map g := by
  simp [assocGet_assocModify]

theorem assocModify_of_none {α β : Type} [DecidableEq α] {l : List (α × β)} {k : α}
    (g : β → β) (h : assocGet l k = none) : assocModify l k g = l := by
  induction l with
  | nil => rfl
  | cons p rest ih =>
    obtain ⟨a, b⟩ := p
    by_cases hak : a = k
    · simp [assocGet, hak] at h
    · simp [assocGet, hak] at h
      simp [assocModify, hak, ih h]

theorem assocModify_of_fix {α β : Type} [DecidableEq α] {l : List (α × β)} {k : α}
    {v : β} (g : β → β) (h : assocGet l k = some v) (hg : g v = v) :
    assocModify l k g = l := by
  induction l with
  | nil => simp [assocGet] at h
  | cons p rest ih =>
    obtain ⟨a, b⟩ := p
    by_cases hak : a = k
    · simp [assocGet, hak] at h
      simp [assocModify, hak, h, hg]
    · simp [assocGet, hak] at h
      simp [assocModify, hak, ih h]

theorem assocGet_assocSet {α β : Type} [DecidableEq α] (l : List (α × β)) (k x : α) (v : β) :
    assocGet (assocSet l k v) x = if k = x then some v else assocGet l x := by
  induction l with
  | nil => simp [assocGet, assocSet]
  | cons p rest ih =>
    obtain ⟨a, b⟩ := p
    by_cases hak : a = k
    · subst hak
      by_cases hax : a = x
      · subst hax
        simp [assocGet, assocSet]
      · simp [assocGet, assocSet, hax]
    · by_cases hax : a = x
      · subst hax
        have hka : ¬ k = a := fun h => hak h.symm
        simp [assocGet, assocSet, hak, hka]
      · simp [assocGet, assocSet, hak, hax, ih]

theorem listModify_get? {α : Type} (l : List α) (i j : Nat) (g : α → α) :
    (listModify l i g).get? j = if i = j then (l.get? i).map g else l.get? j := by
  induction l generalizing i j with
  | nil => simp [listModify]
  | cons a rest ih =>
    cases i with
    | zero =>
      cases j with
      | zero => simp [listModify]
      | succ j => simp [listModify]
    | succ i =>
      cases j with
      | zero => simp [listModify]
      | succ j =>
        simp only [listModify, List.get?_cons_succ]
        rw [ih i j]
        by_cases h : i = j
        · subst h; simp
        · simp [h]

theorem listModify_of_ge {α : Type} {l : List α} {i : Nat} (g : α → α)
    (h : l.length ≤ i) : listModify l i g = l := by
  induction l generalizing i with
  | nil => rfl
  | cons a rest ih =>
    cases i with
    | zero => simp at h
    | succ i =>
      simp at h
      simp [listModify, ih h]

theorem listModify_length {α : Type} (l : List α) (i : Nat) (g : α → α) :
    (listModify l i g).length = l.length := by
  induction l generalizing i with
  | nil => rfl
  | cons a rest ih =>
    cases i with
    | zero => simp [listModify]
    | succ i => simp [listModify, ih]

/-! Lemmas extracting activation events from event lists. -/

theorem get_activated_append (xs ys : List HitboxSequenceEvent) :
    get_activated_hitboxes (xs ++ ys) =
      get_activated_hitboxes xs ++ get_activated_hitboxes ys := by
  simp [get_activated_hitboxes]

theorem get_deactivated_append (xs ys : List HitboxSequenceEvent) :
    get_deactivated_hitboxes (xs ++ ys) =
      get_deactivated_hitboxes xs ++ get_deactivated_hitboxes ys := by
  simp [get_deactivated_hitboxes]

theorem get_activated_of_act (l : List Entity) :
    get_activated_hitboxes (l.map .hitboxActivated) = l := by
  induction l with
  | nil => rfl
  | cons a rest ih => simp [get_activated_hitboxes] at ih ⊢; exact ih

theorem get_activated_of_deact (l : List Entity) :
    get_activated_hitboxes (l.map .hitboxDeactivated) = [] := by
  induction l with
  | nil => rfl
  | cons a rest ih => simp [get_activated_hitboxes]

theorem get_deactivated_of_deact (l : List Entity) :
    get_deactivated_hitboxes (l.map .hitboxDeactivated) = l := by
  induction l with
  | nil => rfl
  | cons a rest ih => simp [get_deactivated_hitboxes] at ih ⊢; exact ih

theorem get_deactivated_of_act (l : List Entity) :
    get_deactivated_hitboxes (l.map .hitboxActivated) = [] := by
  induction l with
  | nil => rfl
  | cons a rest ih => simp [get_deactivated_hitboxes]

theorem get_activated_processTags (e d : ℚ) (ts : List HitboxSequenceFrameTag) :
    get_activated_hitboxes (processTags e d ts).1 = [] := by
  induction ts with
  | nil => rfl
  | cons t rest ih =>
    simp only [processTags]
    split
    · simpa [get_activated_hitboxes] using ih
    · simpa [get_activated_hitboxes] using ih

theorem get_deactivated_processTags (e d : ℚ) (ts : List HitboxSequenceFrameTag) :
    get_deactivated_hitboxes (processTags e d ts).1 = [] := by
  induction ts with
  | nil => rfl
  | cons t rest ih =>
    simp only [processTags]
    split
    · simpa [get_deactivated_hitboxes] using ih
    · simpa [get_deactivated_hitboxes] using ih

theorem get_activated_fin (b : Bool) :
    get_activated_hitboxes (if b then [HitboxSequenceEvent.finished] else []) = [] := by
  cases b <;> rfl

theorem get_deactivated_fin (b : Bool) :
    get_deactivated_hitboxes (if b then [HitboxSequenceEvent.finished] else []) = [] := by
  cases b <;> rfl

/-- C5: the cooldown ledger gates repeat hits: right after a recorded hit the
entry is `0`, so the target can be hit again exactly when the configured
cooldown `cd` satisfies `cd ≤ entry`; an owner with no entry can be hit
immediately; the decay pass adds the tick delta to every entry and removes
none; only `refresh` clears the ledger; a hit overwrites the entry with `0`;
and `from_toml` defaults the cooldown to `1` when unspecified. -/
theorem c5_cooldown_ledger (h : Hitbox) (o o' : Entity) (cd t delta : ℚ)
    (hcd : h.cooldown_per_entity = some cd) :
    ((h.add_damaged_entity o).can_damage_entity o = decide (cd ≤ 0)) ∧
    (assocGet h.damaged_entities o = some t → h.can_damage_entity o = decide (cd ≤ t)) ∧
    (assocGet h.damaged_entities o' = none → h.can_damage_entity o' = true) ∧
    ((h.damagedDeltaTick delta).damaged_entities =
      h.damaged_entities.map (fun p => (p.1, p.2 + delta))) ∧
    (assocGet (h.add_damaged_entity o).damaged_entities o = some 0) ∧
    (h.refresh.damaged_entities = []) ∧
    fromTomlCooldown none = some 1 := by
  refine ⟨?_, ?_, ?_, rfl, ?_, rfl, rfl⟩
  · simp [Hitbox.can_damage_entity, Hitbox.add_damaged_entity, assocGet_assocSet, hcd]
  · intro hget
    simp [Hitbox.can_damage_entity, hget, hcd]
  · intro hget
    simp [Hitbox.can_damage_entity, hget]
  · simp [Hitbox.add_damaged_entity, assocGet_assocSet]

/-- C5 witness: instantiation at the concrete hitbox `hC5`. -/
theorem c5_cooldown_ledger_witness :
    (hC5.can_damage_entity 1 = decide ((1 : ℚ) ≤ 0)) ∧
    (hC5.can_damage_entity 2 = true) ∧
    ((hC5.damagedDeltaTick 1).damaged_entities =
      hC5.damaged_entities.map (fun p => (p.1, p.2 + 1))) ∧
    (hC5.refresh.damaged_entities = []) :=
  ⟨(c5_cooldown_ledger hC5 1 2 1 0 1 rfl).2.1 (by decide),
   (c5_cooldown_ledger hC5 2 2 1 0 1 rfl).2.2.1 (by decide),
   (c5_cooldown_ledger hC5 1 2 1 0 1 rfl).2.2.2.1,
   (c5_cooldown_ledger hC5 1 2 1 0 1 rfl).2.2.2.2.2.1⟩

/-- C8: each tick a pending-timer hitbox accumulates the delta; a reached
`activate_after` activates and clears itself; while `activate_after` is still
pending the `deactivate_after` branch is not even evaluated; a reached
`deactivate_after` (with no activation pending) deactivates and clears itself;
hitboxes with no timers are left untouched. -/
theorem c8_one_time_timer (h : Hitbox) (delta a da : ℚ) :
    (h.is_one_time = true → (h.oneTimeTick delta).elapsed_time = h.elapsed_time + delta) ∧
    (h.is_one_time = false → h.oneTimeTick delta = h) ∧
    (h.activate_after = some a → a ≤ h.elapsed_time + delta →
      h.oneTimeTick delta =
        { h with elapsed_time := h.elapsed_time + delta, active := true,
                 activate_after := none }) ∧
    (h.activate_after = some a → ¬ (a ≤ h.elapsed_time + delta) →
      h.oneTimeTick delta = { h with elapsed_time := h.elapsed_time + delta }) ∧
    (h.activate_after = none → h.deactivate_after = some da →
      da ≤ h.elapsed_time + delta →
      h.oneTimeTick delta =
        { h with elapsed_time := h.elapsed_time + delta, active := false,
                 deactivate_after := none }) ∧
    (h.activate_after = none → h.deactivate_after = some da →
      ¬ (da ≤ h.elapsed_time + delta) →
      h.oneTimeTick delta = { h with elapsed_time := h.elapsed_time + delta }) := by
  obtain ⟨ac, aa, dac, et, ps, cd, de⟩ := h
  refine ⟨?_, ?_, ?_, ?_, ?_, ?_⟩
  · intro hone
    simp only [Hitbox.oneTimeTick, hone, if_true]
    cases aa with
    | some trig =>
      by_cases hle : trig ≤ et + delta
      · by_cases hac : ac <;>
          simp [Hitbox.activate, hle, hac]
      · simp [hle]
    | none =>
      cases dac with
      | some trig =>
        by_cases hle : trig ≤ et + delta <;>
          simp [Hitbox.deactivate, hle]
      | none => simp
  · intro hone
    simp [Hitbox.oneTimeTick, hone]
  · intro hA hle
    simp only at hA
    subst hA
    by_cases hac : ac <;>
      simp [Hitbox.oneTimeTick, Hitbox.is_one_time, Hitbox.activate, hle, hac]
  · intro hA hle
    simp only at hA
    subst hA
    simp [Hitbox.oneTimeTick, Hitbox.is_one_time, hle]
  · intro hA hD hle
    simp only at hA hD
    subst hA; subst hD
    simp [Hitbox.oneTimeTick, Hitbox.is_one_time, Hitbox.deactivate, hle]
  · intro hA hD hle
    simp only at hA hD
    subst hA; subst hD
    simp [Hitbox.oneTimeTick, Hitbox.is_one_time, hle]

/-- C8 witness: the pending activation timer of `hC8` fires (even though its
deactivation timer is also due, activation wins the tick), and a no-timer
hitbox is untouched. -/
theorem c8_one_time_timer_witness :
    (hC8.oneTimeTick 1 =
      { hC8 with elapsed_time := hC8.elapsed_time + 1, active := true,
                 activate_after := none }) ∧
    ((plainHitbox 11 1).oneTimeTick 1 = plainHitbox 11 1) :=
  ⟨(c8_one_time_timer hC8 1 (1/2) 2).2.2.1 rfl (by norm_num [hC8]),
   (c8_one_time_timer (plainHitbox 11 1) 1 0 0).2.1 rfl⟩

/-- C6: `start_sequence` succeeds exactly when the name is a key of the group's
timeline map; on failure the set (cursor included) is unchanged; on success
every frame of every timeline is reset and a fresh cursor at frame `0`,
elapsed `0` is installed, whatever the previous cursor was. -/
theorem c6_start_sequence (hs : HitboxSet) (nm : String) :
    ((hs.start_sequence nm).1 = Except.ok () ↔ (assocGet hs.sequences nm).isSome = true) ∧
    ((assocGet hs.sequences nm).isSome = false → (hs.start_sequence nm).2 = hs) ∧
    ((assocGet hs.sequences nm).isSome = true →
      (hs.start_sequence nm).2 =
        { hs with active_sequence := some ⟨nm, 0, 0⟩,
                  sequences := hs.sequences.map
                    (fun p => (p.1, p.2.map HitboxSequenceFrame.reset)) }) := by
  by_cases hmem : (assocGet hs.sequences nm).isSome
  · simp [HitboxSet.start_sequence, HitboxSet.has_sequence, hmem,
      HitboxSet.reset_sequences, ActiveSequenceData.new]
  · simp [HitboxSet.start_sequence, HitboxSet.has_sequence, hmem]

/-- C6 witness: starting `"swing"` on the two-timeline group `hsC6` resets both
timelines and installs the fresh cursor. -/
theorem c6_start_sequence_witness :
    (hsC6.start_sequence "swing").2 =
      { hsC6 with active_sequence := some ⟨"swing", 0, 0⟩,
                  sequences := hsC6.sequences.map
                    (fun p => (p.1, p.2.map HitboxSequenceFrame.reset)) } :=
  (c6_start_sequence hsC6 "swing").2.2 (by decide)

/-- C10: progressing a cursor whose timeline name is absent from the library,
or whose frame index is out of range, is total: it emits no events, leaves the
library untouched and only adds the delta to the cursor's elapsed time. -/
theorem c10_progress_dangling (s : SeqMap) (hb : List (String × Entity))
    (c : ActiveSequenceData) (delta : ℚ)
    (hmiss : assocGet s c.name = none ∨
      ∃ frames, assocGet s c.name = some frames ∧ frames.length ≤ c.frame) :
    c.progress s hb delta = ([], s, ⟨c.name, c.frame, c.elapsed_time + delta⟩) := by
  have hs1 : ∀ g, setFrame s c.name c.frame g = s := by
    intro g
    rcases hmiss with h | ⟨frames, hf, hlen⟩
    · exact assocModify_of_none _ h
    · exact assocModify_of_fix _ hf (listModify_of_ge _ hlen)
  have hcf : getCurrentFrame s c = none := by
    rcases hmiss with h | ⟨frames, hf, hlen⟩
    · simp [getCurrentFrame, h]
    · simp [getCurrentFrame, hf, List.get?_eq_none]
      exact hlen
  have hcf1 : ∀ e : ℚ,
      getCurrentFrame s (⟨c.name, c.frame, e⟩ : ActiveSequenceData) = none := fun _ => hcf
  unfold ActiveSequenceData.progress
  simp [hcf, hcf1, hs1, ActiveSequenceData.get_current_active_hitboxes,
    ActiveSequenceData.is_current_frame_active]

/-- C10 witness: `cC10` points past the end of its one-frame timeline. -/
theorem c10_progress_dangling_witness :
    cC10.progress sC7 hbC7 1 = ([], sC7, ⟨"swing", 5, cC10.elapsed_time + 1⟩) :=
  c10_progress_dangling sC7 hbC7 cC10 1 (Or.inr ⟨[frameC7], rfl, by decide⟩)

/-- C3 (code bug): `merge_handler` does not rewrite `HurtboxSet` member lists.
With map `{1 ↦ 2}` and a set whose member list is `[1]`, the source's
`contains(new).then(push(new))` never fires and the old id is never removed, so
the list stays `[1]` instead of becoming `[2]`. -/
theorem c3_merge_member_list_not_rewritten :
    (merge_handler [(1, 2)] wC3).hurtboxSets = [(9, ⟨[1], 5⟩)] ∧
    (merge_handler [(1, 2)] wC3).hurtboxSets ≠ [(9, ⟨[2], 5⟩)] := by
  decide

/-- C1 counterexample: two on-hit callbacks are registered and the candidate is
accepted, yet the invocation log of the pair's dispatch holds only the first
callback — the hit is recorded immediately after it, which puts the owner on
cooldown and skips callback `1`, refuting "every registered on-hit callback is
invoked ... and only after all callbacks have run is the hit recorded". -/
theorem c1_counterexample :
    cfgC1.on_hit_fns = [0, 1] ∧
    (dispatchCallbacks cfgC1 wC1 1 10).2 = [(0, ⟨100, 200, 10, 1⟩)] := by
  refine ⟨rfl, ?_⟩
  decide

/-- C2 counterexample: in `wC2` the single colliding pair has a hurtbox whose
`parent_set` lacks a `HurtboxSet` component; the claim says the pair is
skipped, but `get_active_hitbox_to_active_hurtbox_collisions` `.unwrap()`s the
lookup and panics (modelled by `none`) instead of returning a collision map. -/
theorem c2_counterexample :
    get_active_hitbox_to_active_hurtbox_collisions wC2 = none := by
  decide

/-- C4 counterexample: one hitbox with cooldown `0` overlapping two hurtboxes
of the same owner `200` produces two hit events for that owner in a single
tick — there is no owner-level collapsing of hurtboxes, and with a zero
cooldown the ledger does not block the second pair either. -/
theorem c4_counterexample :
    get_active_hitbox_to_active_hurtbox_collisions wC4z = some [(1, [10, 20])] ∧
    ((emdDispatch cfgC4 wC4z [(1, [10, 20])]).2.map (fun p => p.2.hurt_entity)) =
      [200, 200] := by
  decide

/-! Stability of owner lookups under ledger recording. -/

theorem get_hurtbox_owner_add (w : World) (k o x : Entity) :
    get_hurtbox_owner (add_to_damaged_list w k o) x = get_hurtbox_owner w x := rfl

theorem assocGet_add_to_damaged_list (w : World) (k o x : Entity) :
    assocGet (add_to_damaged_list w k o).hitboxes x =
      if k = x then (assocGet w.hitboxes k).map (fun h => h.add_damaged_entity o)
      else assocGet w.hitboxes x := by
  simp [add_to_damaged_list, assocGet_assocModify]

theorem get_hitbox_owner_add (w : World) (k o x : Entity) :
    get_hitbox_owner (add_to_damaged_list w k o) x = get_hitbox_owner w x := by
  unfold get_hitbox_owner
  rw [show (add_to_damaged_list w k o).hitboxSets = w.hitboxSets from rfl,
    assocGet_add_to_damaged_list]
  by_cases hkx : k = x
  · subst hkx
    cases hk : assocGet w.hitboxes k <;> simp [Hitbox.add_damaged_entity]
  · simp [hkx]

/-! Characterization of the per-pair callback loop. -/

theorem dispatchCallbacksAux_no_fire (cfg : HitmeConfig) (hid hb : Entity)
    (fids : List Nat) (w : World) (hnf : dispatchFires cfg w hid hb = false) :
    dispatchCallbacksAux cfg hid hb fids w = (w, []) := by
  induction fids with
  | nil => rfl
  | cons fid rest ih =>
    cases how : get_hurtbox_owner w hb with
    | none => simp [dispatchCallbacksAux, how, ih]
    | some hurt =>
      cases how2 : get_hitbox_owner w hid with
      | none => simp [dispatchCallbacksAux, how, how2, ih]
      | some hit =>
        have hcond :
            ((!(cfg.hit_filter_fns.any (fun flt => !(flt ⟨hit, hurt, hb, hid⟩)))) &&
              (((assocGet w.hitboxes hid).map
                (fun h => h.can_damage_entity hurt)).getD false)) = false := by
          simpa [dispatchFires, how, how2] using hnf
        simp [dispatchCallbacksAux, how, how2, hcond, ih]

theorem dispatchCallbacksAux_fire_step (cfg : HitmeConfig) (hid hb : Entity)
    (fid : Nat) (rest : List Nat) (w : World) (hurt hit : Entity)
    (how : get_hurtbox_owner w hb = some hurt)
    (how2 : get_hitbox_owner w hid = some hit)
    (hfire : dispatchFires cfg w hid hb = true) :
    dispatchCallbacksAux cfg hid hb (fid :: rest) w =
      ((dispatchCallbacksAux cfg hid hb rest (add_to_damaged_list w hid hurt)).1,
       (fid, ⟨hit, hurt, hb, hid⟩) ::
         (dispatchCallbacksAux cfg hid hb rest (add_to_damaged_list w hid hurt)).2) := by
  have hcond :
      ((!(cfg.hit_filter_fns.any (fun flt => !(flt ⟨hit, hurt, hb, hid⟩)))) &&
        (((assocGet w.hitboxes hid).map
          (fun h => h.can_damage_entity hurt)).getD false)) = true := by
    simpa [dispatchFires, how, how2] using hfire
  simp [dispatchCallbacksAux, how, how2, hcond]

theorem dispatchFires_after_record (cfg : HitmeConfig) (w : World)
    (hid hb hurt : Entity) (hx : Hitbox) (cd : ℚ)
    (how : get_hurtbox_owner w hb = some hurt)
    (hhx : assocGet w.hitboxes hid = some hx)
    (hcd : hx.cooldown_per_entity = some cd) (hpos : 0 < cd) :
    dispatchFires cfg (add_to_damaged_list w hid hurt) hid hb = false := by
  have hget : assocGet (add_to_damaged_list w hid hurt).hitboxes hid =
      some (hx.add_damaged_entity hurt) := by
    simp [assocGet_add_to_damaged_list, hhx]
  have hcant : (hx.add_damaged_entity hurt).can_damage_entity hurt = false := by
    simp [Hitbox.can_damage_entity, Hitbox.add_damaged_entity, assocGet_assocSet, hcd]
    exact hpos
  unfold dispatchFires
  rw [show get_hurtbox_owner (add_to_damaged_list w hid hurt) hb =
    get_hurtbox_owner w hb from rfl, how]
  cases how2 : get_hitbox_owner (add_to_damaged_list w hid hurt) hid with
  | none => simp
  | some hit => simp [hget, hcant]

/-- C1 amended: for one (hitbox, hurtbox) pair with a positive cooldown, the
callback loop either does nothing (when the guard is false) or invokes exactly
the first registered callback, recording the hit (ledger entry `0` for the
hurt owner) immediately after it, which blocks every later callback. -/
theorem c1_dispatch_first_callback_only (cfg : HitmeConfig) (w : World) (hid hb : Entity)
    (hx : Hitbox) (cd : ℚ)
    (hhx : assocGet w.hitboxes hid = some hx)
    (hcd : hx.cooldown_per_entity = some cd) (hpos : 0 < cd) :
    (dispatchFires cfg w hid hb = false → dispatchCallbacks cfg w hid hb = (w, [])) ∧
    (∀ f0 rest hurt, cfg.on_hit_fns = f0 :: rest →
      dispatchFires cfg w hid hb = true →
      get_hurtbox_owner w hb = some hurt →
      ∃ hit, get_hitbox_owner w hid = some hit ∧
        dispatchCallbacks cfg w hid hb =
          (add_to_damaged_list w hid hurt, [(f0, ⟨hit, hurt, hb, hid⟩)]) ∧
        assocGet (add_to_damaged_list w hid hurt).hitboxes hid =
          some (hx.add_damaged_entity hurt) ∧
        assocGet (hx.add_damaged_entity hurt).damaged_entities hurt = some 0) := by
  constructor
  · intro hnf
    exact dispatchCallbacksAux_no_fire cfg hid hb cfg.on_hit_fns w hnf
  · intro f0 rest hurt hfns hfire how
    have hhit : ∃ hit, get_hitbox_owner w hid = some hit := by
      cases how2 : get_hitbox_owner w hid with
      | none => simp [dispatchFires, how, how2] at hfire
      | some hit => exact ⟨hit, rfl⟩
    obtain ⟨hit, how2⟩ := hhit
    refine ⟨hit, how2, ?_, ?_, ?_⟩
    · unfold dispatchCallbacks
      rw [hfns, dispatchCallbacksAux_fire_step cfg hid hb f0 rest w hurt hit how how2 hfire,
        dispatchCallbacksAux_no_fire cfg hid hb rest _
          (dispatchFires_after_record cfg w hid hb hurt hx cd how hhx hcd hpos)]
    · simp [assocGet_add_to_damaged_list, hhx]
    · simp [Hitbox.add_damaged_entity, assocGet_assocSet]

/-- C1 amended witness: in `wC1` with the two-callback config, the dispatch
records the hit for owner `200` and logs exactly callback `0`. -/
theorem c1_dispatch_first_callback_only_witness :
    dispatchCallbacks cfgC1 wC1 1 10 =
      (add_to_damaged_list wC1 1 200, [(0, ⟨100, 200, 10, 1⟩)]) := by
  obtain ⟨hit, hhit, heq, -, -⟩ :=
    (c1_dispatch_first_callback_only cfgC1 wC1 1 10 (plainHitbox 11 1) 1 rfl rfl
      (by norm_num)).2 0 [1] 200 rfl (by decide) (by decide)
  have h100 : get_hitbox_owner wC1 1 = some 100 := by decide
  rw [hhit] at h100
  cases h100
  exact heq

/-- C2 amended: owner-lookup failures during callback dispatch skip that pair
with no state change and the remaining pairs still run; the gather phase, by
contrast, panics (`none`) on the dangling parent set of `wC2`. -/
theorem c2_lookup_miss_skips_pair (cfg : HitmeConfig) (w : World) (hid bad : Entity)
    (rest : List (Entity × List Entity)) :
    (get_hurtbox_owner w bad = none → dispatchCallbacks cfg w hid bad = (w, [])) ∧
    (get_hitbox_owner w hid = none → dispatchCallbacks cfg w hid bad = (w, [])) ∧
    (get_hurtbox_owner w bad = none →
      emdDispatch cfg w ((hid, [bad]) :: rest) = emdDispatch cfg w rest) ∧
    get_active_hitbox_to_active_hurtbox_collisions wC2 = none := by
  have h1 : get_hurtbox_owner w bad = none → dispatchCallbacks cfg w hid bad = (w, []) := by
    intro hn
    exact dispatchCallbacksAux_no_fire cfg hid bad cfg.on_hit_fns w (by simp [dispatchFires, hn])
  have h2 : get_hitbox_owner w hid = none → dispatchCallbacks cfg w hid bad = (w, []) := by
    intro hn
    apply dispatchCallbacksAux_no_fire
    cases how : get_hurtbox_owner w bad <;> simp [dispatchFires, how, hn]
  refine ⟨h1, h2, ?_, by decide⟩
  intro hn
  have hdc : dispatchCallbacks cfg w hid bad = (w, []) := h1 hn
  show emdDispatchAux cfg ((hid, [bad]) :: rest) w = emdDispatchAux cfg rest w
  simp [emdDispatchAux, dispatchHitbox, dispatchHitboxAux, hdc]

/-- C2 amended witness: entity `77` is no hurtbox of `wC2`, so dispatching the
pair `(1, 77)` is a no-op. -/
theorem c2_lookup_miss_skips_pair_witness :
    dispatchCallbacks cfgC2 wC2 1 77 = (wC2, []) :=
  (c2_lookup_miss_skips_pair cfgC2 wC2 1 77 []).1 (by decide)

theorem dispatchFires_can_damage (cfg : HitmeConfig) (w : World) (hid hb hurt : Entity)
    (hx : Hitbox) (how : get_hurtbox_owner w hb = some hurt)
    (hhx : assocGet w.hitboxes hid = some hx)
    (hfire : dispatchFires cfg w hid hb = true) :
    hx.can_damage_entity hurt = true := by
  cases how2 : get_hitbox_owner w hid with
  | none => simp [dispatchFires, how, how2] at hfire
  | some hit =>
    simp [dispatchFires, how, how2, hhx] at hfire
    exact hfire.2

theorem dispatchHitboxAux_count (cfg : HitmeConfig) (hid o : Entity) (cd : ℚ)
    (hpos : 0 < cd) :
    ∀ (hbs : List Entity) (w : World) (hx : Hitbox),
      assocGet w.hitboxes hid = some hx → hx.cooldown_per_entity = some cd →
      ((dispatchHitboxAux cfg hid hbs w).2.countP (fun p => p.2.hurt_entity == o) ≤ 1 ∧
       (assocGet hx.damaged_entities o = some 0 →
        (dispatchHitboxAux cfg hid hbs w).2.countP (fun p => p.2.hurt_entity == o) = 0)) := by
  intro hbs
  induction hbs with
  | nil =>
    intro w hx hhx hcd
    simp [dispatchHitboxAux]
  | cons hb rest ih =>
    intro w hx hhx hcd
    cases how : get_hurtbox_owner w hb with
    | none =>
      have hnf : dispatchFires cfg w hid hb = false := by simp [dispatchFires, how]
      have hdc : dispatchCallbacks cfg w hid hb = (w, []) :=
        dispatchCallbacksAux_no_fire cfg hid hb cfg.on_hit_fns w hnf
      simp only [dispatchHitboxAux, hdc]
      simpa using ih w hx hhx hcd
    | some hurt =>
      cases hfire : dispatchFires cfg w hid hb with
      | false =>
        have hdc : dispatchCallbacks cfg w hid hb = (w, []) :=
          dispatchCallbacksAux_no_fire cfg hid hb cfg.on_hit_fns w hfire
        simp only [dispatchHitboxAux, hdc]
        simpa using ih w hx hhx hcd
      | true =>
        cases hfns : cfg.on_hit_fns with
        | nil =>
          have hdc : dispatchCallbacks cfg w hid hb = (w, []) := by
            unfold dispatchCallbacks
            rw [hfns]
            rfl
          simp only [dispatchHitboxAux, hdc]
          simpa using ih w hx hhx hcd
        | cons f0 fr =>
          have hhit : ∃ hit, get_hitbox_owner w hid = some hit := by
            cases how2 : get_hitbox_owner w hid with
            | none => simp [dispatchFires, how, how2] at hfire
            | some hit => exact ⟨hit, rfl⟩
          obtain ⟨hit, how2⟩ := hhit
          have hdc : dispatchCallbacks cfg w hid hb =
              (add_to_damaged_list w hid hurt, [(f0, ⟨hit, hurt, hb, hid⟩)]) := by
            unfold dispatchCallbacks
            rw [hfns, dispatchCallbacksAux_fire_step cfg hid hb f0 fr w hurt hit how how2 hfire,
              dispatchCallbacksAux_no_fire cfg hid hb fr _
                (dispatchFires_after_record cfg w hid hb hurt hx cd how hhx hcd hpos)]
          have hw1 : assocGet (add_to_damaged_list w hid hurt).hitboxes hid =
              some (hx.add_damaged_entity hurt) := by
            simp [assocGet_add_to_damaged_list, hhx]
          have hcd1 : (hx.add_damaged_entity hurt).cooldown_per_entity = some cd := hcd
          have hcan : hx.can_damage_entity hurt = true :=
            dispatchFires_can_damage cfg w hid hb hurt hx how hhx hfire
          have hsplit : (dispatchHitboxAux cfg hid (hb :: rest) w).2 =
              (f0, (⟨hit, hurt, hb, hid⟩ : OnHitContext)) ::
                (dispatchHitboxAux cfg hid rest (add_to_damaged_list w hid hurt)).2 := by
            simp [dispatchHitboxAux, hdc]
          by_cases ho : hurt = o
          · subst ho
            have hblocked := (ih (add_to_damaged_list w hid hurt)
              (hx.add_damaged_entity hurt) hw1 hcd1).2
              (by simp [Hitbox.add_damaged_entity, assocGet_assocSet])
            constructor
            · rw [hsplit]
              simp [List.countP_cons, hblocked]
            · intro hzero
              exfalso
              have hdec : decide (cd ≤ (0 : ℚ)) = true := by
                simpa [Hitbox.can_damage_entity, hzero, hcd] using hcan
              exact absurd (of_decide_eq_true hdec) (not_le.mpr hpos)
          · have hpres : assocGet (hx.add_damaged_entity hurt).damaged_entities o =
                assocGet hx.damaged_entities o := by
              simp [Hitbox.add_damaged_entity, assocGet_assocSet, ho]
            have ih1 := ih (add_to_damaged_list w hid hurt) (hx.add_damaged_entity hurt) hw1 hcd1
            have hne : ((⟨hit, hurt, hb, hid⟩ : OnHitContext).hurt_entity == o) = false := by
              simp [ho]
            constructor
            · rw [hsplit, List.countP_cons]
              simpa [hne] using ih1.1
            · intro hzero
              rw [hsplit, List.countP_cons, ih1.2 (hpres.trans hzero)]
              simp [hne]

/-- C4 amended: with a positive per-entity cooldown, processing all hurtboxes
colliding with one hitbox yields at most one hit event for any given hurt
owner `o` (deduplication is enforced by the mid-tick ledger update, not by
owner-level collapsing); and in the concrete two-hitbox scenario both hitboxes
of owner `100` hit owner `200` exactly once each, every hit tracked in its own
hitbox's ledger. -/
theorem c4_dedup_by_cooldown (cfg : HitmeConfig) (w : World) (hid o : Entity)
    (hbs : List Entity) (hx : Hitbox) (cd : ℚ)
    (hhx : assocGet w.hitboxes hid = some hx)
    (hcd : hx.cooldown_per_entity = some cd) (hpos : 0 < cd) :
    ((dispatchHitbox cfg w hid hbs).2.countP (fun p => p.2.hurt_entity == o) ≤ 1) ∧
    (get_active_hitbox_to_active_hurtbox_collisions wC4 = some collsC4 ∧
     ((emdDispatch cfgC4 wC4 collsC4).2.map
       (fun p => (p.2.hitbox, p.2.hit_entity, p.2.hurt_entity))) =
         [(1, 100, 200), (2, 100, 200)] ∧
     assocGet (emdDispatch cfgC4 wC4 collsC4).1.hitboxes 1 =
       some ((plainHitbox 11 1).add_damaged_entity 200) ∧
     assocGet (emdDispatch cfgC4 wC4 collsC4).1.hitboxes 2 =
       some ((plainHitbox 11 1).add_damaged_entity 200)) :=
  ⟨(dispatchHitboxAux_count cfg hid o cd hpos hbs w hx hhx hcd).1, by decide⟩

/-- C4 amended witness: instantiation at the concrete world `wC4`. -/
theorem c4_dedup_by_cooldown_witness :
    (dispatchHitbox cfgC4 wC4 1 [10]).2.countP (fun p => p.2.hurt_entity == 200) ≤ 1 :=
  (c4_dedup_by_cooldown cfgC4 wC4 1 200 [10] (plainHitbox 11 1) 1 rfl rfl (by norm_num)).1

/-! Owner lookups are stable across dispatch, and log entries carry the owners
that were looked up. -/

theorem dispatchCallbacksAux_owner_stable (cfg : HitmeConfig) (hid hb : Entity) :
    ∀ (fids : List Nat) (w : World) (x : Entity),
      (get_hurtbox_owner (dispatchCallbacksAux cfg hid hb fids w).1 x =
        get_hurtbox_owner w x) ∧
      (get_hitbox_owner (dispatchCallbacksAux cfg hid hb fids w).1 x =
        get_hitbox_owner w x) := by
  intro fids
  induction fids with
  | nil => intro w x; exact ⟨rfl, rfl⟩
  | cons fid rest ih =>
    intro w x
    cases how : get_hurtbox_owner w hb with
    | none => simpa [dispatchCallbacksAux, how] using ih w x
    | some hurt =>
      cases how2 : get_hitbox_owner w hid with
      | none => simpa [dispatchCallbacksAux, how, how2] using ih w x
      | some hit =>
        by_cases hcond :
            ((!(cfg.hit_filter_fns.any (fun flt => !(flt ⟨hit, hurt, hb, hid⟩)))) &&
              (((assocGet w.hitboxes hid).map
                (fun h => h.can_damage_entity hurt)).getD false)) = true
        · have h1 := ih (add_to_damaged_list w hid hurt) x
          simp only [dispatchCallbacksAux, how, how2, hcond]
          constructor
          · simpa [get_hurtbox_owner_add] using h1.1
          · simpa [get_hitbox_owner_add] using h1.2
        · simp only [Bool.not_eq_true] at hcond
          simpa [dispatchCallbacksAux, how, how2, hcond] using ih w x

theorem dispatchCallbacksAux_log_mem (cfg : HitmeConfig) (hid hb : Entity) :
    ∀ (fids : List Nat) (w : World) (p : Nat × OnHitContext),
      p ∈ (dispatchCallbacksAux cfg hid hb fids w).2 →
      p.2.hitbox = hid ∧ p.2.hurtbox = hb ∧
      get_hurtbox_owner w hb = some p.2.hurt_entity ∧
      get_hitbox_owner w hid = some p.2.hit_entity := by
  intro fids
  induction fids with
  | nil => intro w p hp; simp [dispatchCallbacksAux] at hp
  | cons fid rest ih =>
    intro w p hp
    cases how : get_hurtbox_owner w hb with
    | none =>
      rw [show dispatchCallbacksAux cfg hid hb (fid :: rest) w =
        dispatchCallbacksAux cfg hid hb rest w by simp [dispatchCallbacksAux, how]] at hp
      have h1 := ih w p hp
      rw [how] at h1
      exact h1
    | some hurt =>
      cases how2 : get_hitbox_owner w hid with
      | none =>
        rw [show dispatchCallbacksAux cfg hid hb (fid :: rest) w =
          dispatchCallbacksAux cfg hid hb rest w by simp [dispatchCallbacksAux, how, how2]] at hp
        have h1 := ih w p hp
        rw [how, how2] at h1
        exact h1
      | some hit =>
        by_cases hcond :
            ((!(cfg.hit_filter_fns.any (fun flt => !(flt ⟨hit, hurt, hb, hid⟩)))) &&
              (((assocGet w.hitboxes hid).map
                (fun h => h.can_damage_entity hurt)).getD false)) = true
        · rw [show dispatchCallbacksAux cfg hid hb (fid :: rest) w =
            ((dispatchCallbacksAux cfg hid hb rest (add_to_damaged_list w hid hurt)).1,
             (fid, ⟨hit, hurt, hb, hid⟩) ::
               (dispatchCallbacksAux cfg hid hb rest (add_to_damaged_list w hid hurt)).2)
            by simp [dispatchCallbacksAux, how, how2, hcond]] at hp
          rcases List.mem_cons.1 hp with hp | hp
          · subst hp
            exact ⟨rfl, rfl, rfl, rfl⟩
          · have h1 := ih (add_to_damaged_list w hid hurt) p hp
            have ha : get_hurtbox_owner w hb = some p.2.hurt_entity := by
              rw [← get_hurtbox_owner_add w hid hurt hb]
              exact h1.2.2.1
            have hc : get_hitbox_owner w hid = some p.2.hit_entity := by
              rw [← get_hitbox_owner_add w hid hurt hid]
              exact h1.2.2.2
            rw [how] at ha
            rw [how2] at hc
            exact ⟨h1.1, h1.2.1, ha, hc⟩
        · simp only [Bool.not_eq_true] at hcond
          rw [show dispatchCallbacksAux cfg hid hb (fid :: rest) w =
            dispatchCallbacksAux cfg hid hb rest w
            by simp [dispatchCallbacksAux, how, how2, hcond]] at hp
          have h1 := ih w p hp
          rw [how, how2] at h1
          exact h1

theorem dispatchHitboxAux_owner_stable (cfg : HitmeConfig) (hid : Entity) :
    ∀ (hbs : List Entity) (w : World) (x : Entity),
      (get_hurtbox_owner (dispatchHitboxAux cfg hid hbs w).1 x = get_hurtbox_owner w x) ∧
      (get_hitbox_owner (dispatchHitboxAux cfg hid hbs w).1 x = get_hitbox_owner w x) := by
  intro hbs
  induction hbs with
  | nil => intro w x; exact ⟨rfl, rfl⟩
  | cons hb rest ih =>
    intro w x
    have h1 := ih (dispatchCallbacks cfg w hid hb).1 x
    have h2 := dispatchCallbacksAux_owner_stable cfg hid hb cfg.on_hit_fns w x
    constructor
    · simpa [dispatchHitboxAux, dispatchCallbacks, h2.1] using h1.1
    · simpa [dispatchHitboxAux, dispatchCallbacks, h2.2] using h1.2

theorem dispatchHitboxAux_log_mem (cfg : HitmeConfig) (hid : Entity) :
    ∀ (hbs : List Entity) (w : World) (p : Nat × OnHitContext),
      p ∈ (dispatchHitboxAux cfg hid hbs w).2 →
      p.2.hitbox = hid ∧ p.2.hurtbox ∈ hbs ∧
      get_hurtbox_owner w p.2.hurtbox = some p.2.hurt_entity ∧
      get_hitbox_owner w hid = some p.2.hit_entity := by
  intro hbs
  induction hbs with
  | nil => intro w p hp; simp [dispatchHitboxAux] at hp
  | cons hb rest ih =>
    intro w p hp
    have hsplit : (dispatchHitboxAux cfg hid (hb :: rest) w).2 =
        (dispatchCallbacks cfg w hid hb).2 ++
          (dispatchHitboxAux cfg hid rest (dispatchCallbacks cfg w hid hb).1).2 := by
      simp [dispatchHitboxAux]
    rw [hsplit] at hp
    rcases List.mem_append.1 hp with hp | hp
    · have h1 := dispatchCallbacksAux_log_mem cfg hid hb cfg.on_hit_fns w p hp
      exact ⟨h1.1, by rw [h1.2.1]; exact List.mem_cons_self hb rest,
        by rw [h1.2.1]; exact h1.2.2.1, h1.2.2.2⟩
    · have h1 := ih (dispatchCallbacks cfg w hid hb).1 p hp
      have h2 := dispatchCallbacksAux_owner_stable cfg hid hb cfg.on_hit_fns w
      refine ⟨h1.1, List.mem_cons_of_mem hb h1.2.1, ?_, ?_⟩
      · rw [← (h2 p.2.hurtbox).1]
        exact h1.2.2.1
      · rw [← (h2 hid).2]
        exact h1.2.2.2

theorem emdDispatchAux_log_mem (cfg : HitmeConfig) :
    ∀ (colls : List (Entity × List Entity)) (w : World) (p : Nat × OnHitContext),
      p ∈ (emdDispatchAux cfg colls w).2 →
      ∃ pr, pr ∈ colls ∧ p.2.hitbox = pr.1 ∧ p.2.hurtbox ∈ pr.2 ∧
        get_hurtbox_owner w p.2.hurtbox = some p.2.hurt_entity ∧
        get_hitbox_owner w p.2.hitbox = some p.2.hit_entity := by
  intro colls
  induction colls with
  | nil => intro w p hp; simp [emdDispatchAux] at hp
  | cons pr rest ih =>
    intro w p hp
    have hsplit : (emdDispatchAux cfg (pr :: rest) w).2 =
        (dispatchHitbox cfg w pr.1 pr.2).2 ++
          (emdDispatchAux cfg rest (dispatchHitbox cfg w pr.1 pr.2).1).2 := by
      simp [emdDispatchAux]
    rw [hsplit] at hp
    rcases List.mem_append.1 hp with hp | hp
    · have h1 := dispatchHitboxAux_log_mem cfg pr.1 pr.2 w p hp
      exact ⟨pr, List.mem_cons_self pr rest, h1.1, h1.2.1, h1.2.2.1, by rw [h1.1]; exact h1.2.2.2⟩
    · obtain ⟨pr', hmem, hh1, hh2, hh3, hh4⟩ :=
        ih (dispatchHitbox cfg w pr.1 pr.2).1 p hp
      have h2 := dispatchHitboxAux_owner_stable cfg pr.1 pr.2 w
      refine ⟨pr', List.mem_cons_of_mem pr hmem, hh1, hh2, ?_, ?_⟩
      · rw [← (h2 p.2.hurtbox).1]
        exact hh3
      · rw [← (h2 p.2.hitbox).2]
        exact hh4

/-! Inversion of the gather phase. -/

theorem filterOpt_mem {α : Type} (p : α → Option Bool) :
    ∀ (l r : List α), filterOpt p l = some r → ∀ a ∈ r, a ∈ l ∧ p a = some true := by
  intro l
  induction l with
  | nil =>
    intro r h a ha
    simp [filterOpt] at h
    subst h
    simp at ha
  | cons x rest ih =>
    intro r h a ha
    simp only [filterOpt] at h
    cases hp : p x with
    | none => rw [hp] at h; simp at h
    | some b =>
      rw [hp] at h
      cases hrest : filterOpt p rest with
      | none => rw [hrest] at h; simp at h
      | some r' =>
        rw [hrest] at h
        simp at h
        cases b with
        | true =>
          simp at h
          subst h
          rcases List.mem_cons.1 ha with ha | ha
          · subst ha
            exact ⟨List.mem_cons_self a rest, hp⟩
          · obtain ⟨hmem, hpa⟩ := ih r' hrest a ha
            exact ⟨List.mem_cons_of_mem x hmem, hpa⟩
        | false =>
          simp at h
          subst h
          obtain ⟨hmem, hpa⟩ := ih r' hrest a ha
          exact ⟨List.mem_cons_of_mem x hmem, hpa⟩

theorem gatherAll_mem (w : World) :
    ∀ (l : List Entity) (colls : List (Entity × List Entity)),
      gatherAll w l = some colls → ∀ pr ∈ colls, ∀ hb ∈ pr.2,
        gatherFilter w pr.1 hb = some true := by
  intro l
  induction l with
  | nil =>
    intro colls h pr hpr hb hhb
    simp [gatherAll] at h
    subst h
    simp at hpr
  | cons hid rest ih =>
    intro colls h pr hpr hb hhb
    simp only [gatherAll] at h
    cases hf : filterOpt (gatherFilter w hid) (get_colliding_active_hurtboxes w hid) with
    | none => rw [hf] at h; simp at h
    | some hbs =>
      rw [hf] at h
      cases hrest : gatherAll w rest with
      | none => rw [hrest] at h; simp at h
      | some tail =>
        rw [hrest] at h
        simp at h
        subst h
        rcases List.mem_cons.1 hpr with hpr | hpr
        · subst hpr
          have hmem : hb ∈ hbs := List.mem_dedup.1 hhb
          exact (filterOpt_mem (gatherFilter w hid)
            (get_colliding_active_hurtboxes w hid) hbs hf hb hmem).2
        · exact ih tail hrest pr hpr hb hhb

theorem gatherFilter_true (w : World) (hid hb : Entity)
    (h : gatherFilter w hid hb = some true) :
    ∃ ho o, get_hitbox_owner w hid = some ho ∧ get_hurtbox_owner w hb = some o ∧
      ho ≠ o := by
  unfold gatherFilter at h
  cases h1 : assocGet w.hurtboxes hb with
  | none => simp [h1] at h
  | some hbx =>
    simp only [h1, Option.some_bind] at h
    cases h2 : assocGet w.hurtboxSets hbx.parent_set with
    | none => simp [h2] at h
    | some hbs =>
      simp only [h2, Option.some_bind] at h
      cases h3 : assocGet w.hitboxes hid with
      | none => simp [h3] at h
      | some hx =>
        simp only [h3, Option.some_bind] at h
        cases h4 : assocGet w.hitboxSets hx.parent_set with
        | none => simp [h4] at h
        | some hxs =>
          simp only [h4, Option.some_bind] at h
          simp at h
          refine ⟨hxs.owner, hbs.owner, ?_, ?_, ?_⟩
          · simp [get_hitbox_owner, h3, h4]
          · simp [get_hurtbox_owner, h1, h2]
          · exact h.1

/-- C9: every hit event dispatched from a gathered collision map has distinct
hit and hurt owners — the gather phase drops same-owner pairs before filters
and callbacks ever run, and the dispatch phase re-reads owners that recording
hits cannot change. -/
theorem c9_no_self_damage (w : World) (cfg : HitmeConfig)
    (colls : List (Entity × List Entity))
    (hg : get_active_hitbox_to_active_hurtbox_collisions w = some colls) :
    ∀ p ∈ (emdDispatch cfg w colls).2, p.2.hit_entity ≠ p.2.hurt_entity := by
  intro p hp
  obtain ⟨pr, hprmem, hhit, hhb, hown1, hown2⟩ := emdDispatchAux_log_mem cfg colls w p hp
  have hfil : gatherFilter w pr.1 p.2.hurtbox = some true :=
    gatherAll_mem w (get_all_active_hitboxes w) colls hg pr hprmem p.2.hurtbox hhb
  obtain ⟨ho, o, hho, hoo, hne⟩ := gatherFilter_true w pr.1 p.2.hurtbox hfil
  rw [hhit] at hown2
  rw [hown2] at hho
  rw [hown1] at hoo
  have e1 : p.2.hit_entity = ho := Option.some_inj.1 hho
  have e2 : p.2.hurt_entity = o := Option.some_inj.1 hoo
  rw [e1, e2]
  exact hne

/-- C9 witness: instantiation at the concrete world `wC9`. -/
theorem c9_no_self_damage_witness :
    ((⟨100, 200, 10, 1⟩ : OnHitContext).hit_entity ≠
      (⟨100, 200, 10, 1⟩ : OnHitContext).hurt_entity) :=
  c9_no_self_damage wC9 cfgC9 [(1, [10])] (by decide)
    (0, ⟨100, 200, 10, 1⟩) (by decide)

/-! Step-level characterization of `progress` on a valid frame. -/

theorem getCurrentFrame_setFrame (s : SeqMap) (nm : String) (i : Nat)
    (g : HitboxSequenceFrame → HitboxSequenceFrame) (e : ℚ) :
    getCurrentFrame (setFrame s nm i g) (⟨nm, i, e⟩ : ActiveSequenceData) =
      (getCurrentFrame s (⟨nm, i, e⟩ : ActiveSequenceData)).map g := by
  simp only [getCurrentFrame, setFrame, assocGet_assocModify_self]
  cases assocGet s nm with
  | none => rfl
  | some frames =>
    have h := listModify_get? frames i i g
    rw [if_pos rfl] at h
    rw [List.get?_eq_getElem?, List.get?_eq_getElem?] at h
    simpa using h

theorem get_activated_finished_ite (P : Prop) [Decidable P] :
    get_activated_hitboxes (if P then [HitboxSequenceEvent.finished] else []) = [] := by
  split <;> rfl

theorem get_deactivated_finished_ite (P : Prop) [Decidable P] :
    get_deactivated_hitboxes (if P then [HitboxSequenceEvent.finished] else []) = [] := by
  split <;> rfl

theorem progress_frame_mono (c : ActiveSequenceData) (s : SeqMap)
    (hb : List (String × Entity)) (delta : ℚ) :
    c.frame ≤ ((c.progress s hb delta).2.2).frame ∧
      ((c.progress s hb delta).2.2).name = c.name := by
  unfold ActiveSequenceData.progress
  dsimp only
  split
  · exact ⟨Nat.le_refl _, rfl⟩
  · split
    · exact ⟨Nat.le_succ _, rfl⟩
    · exact ⟨Nat.le_refl _, rfl⟩

theorem progressRun_frame_ge (hb : List (String × Entity)) :
    ∀ (ds : List ℚ) (s : SeqMap) (c : ActiveSequenceData) (k : Nat) (fr : Nat)
      (evs : List HitboxSequenceEvent),
      (progressRun hb s c ds).get? k = some (fr, evs) → c.frame ≤ fr := by
  intro ds
  induction ds with
  | nil => intro s c k fr evs h; simp [progressRun] at h
  | cons delta rest ih =>
    intro s c k fr evs h
    cases k with
    | zero =>
      simp [progressRun] at h
      exact le_of_eq h.1
    | succ k =>
      simp only [progressRun, List.get?_cons_succ] at h
      have h1 := ih (c.progress s hb delta).2.1 (c.progress s hb delta).2.2 k fr evs h
      exact Nat.le_trans (progress_frame_mono c s hb delta).1 h1

theorem assocGet_setFrame_self (s : SeqMap) (nm : String) (i : Nat)
    (g : HitboxSequenceFrame → HitboxSequenceFrame) :
    assocGet (setFrame s nm i g) nm =
      (assocGet s nm).map (fun frames => listModify frames i g) := by
  simp [setFrame, assocGet_assocModify_self]

theorem progress_step (s : SeqMap) (hb : List (String × Entity)) (nm : String) (i : Nat)
    (frames : List HitboxSequenceFrame) (f : HitboxSequenceFrame) (e delta : ℚ)
    (hs : assocGet s nm = some frames) (hf : frames.get? i = some f) :
    (get_activated_hitboxes ((ActiveSequenceData.progress ⟨nm, i, e⟩ s hb delta).1) =
      (if f.delay ≤ e + delta ∧ f.active = false then f.get_hitboxes hb else [])) ∧
    (get_deactivated_hitboxes ((ActiveSequenceData.progress ⟨nm, i, e⟩ s hb delta).1) =
      (if f.duration + f.delay ≤ e + delta then f.get_hitboxes hb else [])) ∧
    (f.duration + f.delay ≤ e + delta →
      ((ActiveSequenceData.progress ⟨nm, i, e⟩ s hb delta).2.2) = ⟨nm, i + 1, 0⟩) ∧
    (¬ (f.duration + f.delay ≤ e + delta) →
      ((ActiveSequenceData.progress ⟨nm, i, e⟩ s hb delta).2.2) = ⟨nm, i, e + delta⟩ ∧
      ∃ frames1 f1,
        assocGet ((ActiveSequenceData.progress ⟨nm, i, e⟩ s hb delta).2.1) nm = some frames1 ∧
        frames1.get? i = some f1 ∧
        f1.delay = f.delay ∧ f1.duration = f.duration ∧
        f1.name = f.name ∧ f1.names = f.names ∧
        f1.active = (f.active || decide (f.delay ≤ e + delta))) := by
  have hcf0 : getCurrentFrame s (⟨nm, i, e⟩ : ActiveSequenceData) = some f := by
    simp only [getCurrentFrame, hs, Option.some_bind]
    exact hf
  have hcf1 : getCurrentFrame s (⟨nm, i, e + delta⟩ : ActiveSequenceData) = some f := by
    simp only [getCurrentFrame, hs, Option.some_bind]
    exact hf
  by_cases hfire : f.delay ≤ e + delta ∧ f.active = false
  · by_cases hdur : f.duration + f.delay ≤ e + delta
    · refine ⟨?_, ?_, fun _ => ?_, fun h => absurd hdur h⟩
      · simp [ActiveSequenceData.progress, ActiveSequenceData.is_current_frame_active,
          ActiveSequenceData.get_current_active_hitboxes, hcf0, hcf1, getCurrentFrame_setFrame,
          hfire, hdur, get_activated_append, get_activated_of_act, get_activated_of_deact,
          get_activated_processTags, get_activated_finished_ite, assocGet_setFrame_self, hs,
          HitboxSequenceFrame.get_hitboxes]
      · simp [ActiveSequenceData.progress, ActiveSequenceData.is_current_frame_active,
          ActiveSequenceData.get_current_active_hitboxes, hcf0, hcf1, getCurrentFrame_setFrame,
          hfire, hdur, get_deactivated_append, get_deactivated_of_act, get_deactivated_of_deact,
          get_deactivated_processTags, get_deactivated_finished_ite, assocGet_setFrame_self, hs,
          HitboxSequenceFrame.get_hitboxes]
      · simp [ActiveSequenceData.progress, ActiveSequenceData.is_current_frame_active,
          ActiveSequenceData.get_current_active_hitboxes, hcf0, hcf1, getCurrentFrame_setFrame,
          hfire, hdur]
    · refine ⟨?_, ?_, fun h => absurd h hdur, fun _ => ⟨?_, ?_⟩⟩
      · simp [ActiveSequenceData.progress, ActiveSequenceData.is_current_frame_active,
          ActiveSequenceData.get_current_active_hitboxes, hcf0, hcf1, getCurrentFrame_setFrame,
          hfire, hdur, get_activated_append, get_activated_of_act,
          get_activated_processTags, HitboxSequenceFrame.get_hitboxes]
      · simp [ActiveSequenceData.progress, ActiveSequenceData.is_current_frame_active,
          ActiveSequenceData.get_current_active_hitboxes, hcf0, hcf1, getCurrentFrame_setFrame,
          hfire, hdur, get_deactivated_append, get_deactivated_of_act,
          get_deactivated_processTags]
      · simp [ActiveSequenceData.progress, ActiveSequenceData.is_current_frame_active,
          ActiveSequenceData.get_current_active_hitboxes, hcf0, hcf1, getCurrentFrame_setFrame,
          hfire, hdur]
      · refine ⟨listModify (listModify frames i (fun g => { g with active := true })) i
          (fun g => { g with tags := (processTags (e + delta) f.delay f.tags).2 }),
          { f with active := true, tags := (processTags (e + delta) f.delay f.tags).2 },
          ?_, ?_, rfl, rfl, rfl, rfl, ?_⟩
        · simp [ActiveSequenceData.progress, ActiveSequenceData.is_current_frame_active,
            ActiveSequenceData.get_current_active_hitboxes, hcf0, hcf1, getCurrentFrame_setFrame,
            hfire, hdur, assocGet_setFrame_self, hs]
        · have h1 := listModify_get? (listModify frames i (fun g => { g with active := true })) i i
            (fun g => { g with tags := (processTags (e + delta) f.delay f.tags).2 })
          have h2 := listModify_get? frames i i (fun g => { g with active := true })
          rw [if_pos rfl] at h1 h2
          rw [h1, h2, hf]
          rfl
        · simp [hfire.1, hfire.2]
  · by_cases hdur : f.duration + f.delay ≤ e + delta
    · refine ⟨?_, ?_, fun _ => ?_, fun h => absurd hdur h⟩
      · simp [ActiveSequenceData.progress, ActiveSequenceData.is_current_frame_active,
          ActiveSequenceData.get_current_active_hitboxes, hcf0, hcf1, getCurrentFrame_setFrame,
          hfire, hdur, get_activated_append, get_activated_of_deact,
          get_activated_processTags, get_activated_finished_ite, assocGet_setFrame_self, hs]
      · simp [ActiveSequenceData.progress, ActiveSequenceData.is_current_frame_active,
          ActiveSequenceData.get_current_active_hitboxes, hcf0, hcf1, getCurrentFrame_setFrame,
          hfire, hdur, get_deactivated_append, get_deactivated_of_deact,
          get_deactivated_processTags, get_deactivated_finished_ite, assocGet_setFrame_self, hs,
          HitboxSequenceFrame.get_hitboxes]
      · simp [ActiveSequenceData.progress, ActiveSequenceData.is_current_frame_active,
          ActiveSequenceData.get_current_active_hitboxes, hcf0, hcf1, getCurrentFrame_setFrame,
          hfire, hdur]
    · refine ⟨?_, ?_, fun h => absurd h hdur, fun _ => ⟨?_, ?_⟩⟩
      · simp [ActiveSequenceData.progress, ActiveSequenceData.is_current_frame_active,
          ActiveSequenceData.get_current_active_hitboxes, hcf0, hcf1, getCurrentFrame_setFrame,
          hfire, hdur, get_activated_append, get_activated_processTags]
      · simp [ActiveSequenceData.progress, ActiveSequenceData.is_current_frame_active,
          ActiveSequenceData.get_current_active_hitboxes, hcf0, hcf1, getCurrentFrame_setFrame,
          hfire, hdur, get_deactivated_append, get_deactivated_processTags]
      · simp [ActiveSequenceData.progress, ActiveSequenceData.is_current_frame_active,
          ActiveSequenceData.get_current_active_hitboxes, hcf0, hcf1, getCurrentFrame_setFrame,
          hfire, hdur]
      · refine ⟨listModify frames i
          (fun g => { g with tags := (processTags (e + delta) f.delay f.tags).2 }),
          { f with tags := (processTags (e + delta) f.delay f.tags).2 },
          ?_, ?_, rfl, rfl, rfl, rfl, ?_⟩
        · simp [ActiveSequenceData.progress, ActiveSequenceData.is_current_frame_active,
            ActiveSequenceData.get_current_active_hitboxes, hcf0, hcf1, getCurrentFrame_setFrame,
            hfire, hdur, assocGet_setFrame_self, hs]
        · have h1 := listModify_get? frames i i
            (fun g => { g with tags := (processTags (e + delta) f.delay f.tags).2 })
          rw [if_pos rfl] at h1
          rw [h1, hf]
          rfl
        · rcases not_and_or.mp hfire with h | h
          · simp [h]
          · simp only [Bool.not_eq_false] at h
            simp [h]

theorem get_hitboxes_congr (f g : HitboxSequenceFrame) (hb : List (String × Entity))
    (h1 : f.name = g.name) (h2 : f.names = g.names) :
    f.get_hitboxes hb = g.get_hitboxes hb := by
  simp [HitboxSequenceFrame.get_hitboxes, h1, h2]

theorem take_sum_nonneg (ds : List ℚ) (k : Nat) (h : ∀ x ∈ ds, 0 ≤ x) :
    0 ≤ (ds.take k).sum :=
  List.sum_nonneg (fun x hx => h x (List.take_subset k ds hx))

theorem progressRun_char (hb : List (String × Entity)) (nm : String) (i : Nat)
    (B : List Entity) (d t : ℚ) :
    ∀ (ds : List ℚ) (s : SeqMap) (frames : List HitboxSequenceFrame)
      (f : HitboxSequenceFrame) (e : ℚ),
      assocGet s nm = some frames → frames.get? i = some f →
      f.delay = d → f.duration = t → f.get_hitboxes hb = B →
      (f.active = true → d ≤ e) →
      (∀ x ∈ ds, 0 ≤ x) →
      ∀ (k fr : Nat) (evs : List HitboxSequenceEvent),
        (progressRun hb s ⟨nm, i, e⟩ ds).get? k = some (fr, evs) →
        (fr = i ↔ (k = 0 ∨ e + (ds.take k).sum < t + d)) ∧
        (fr = i →
          (get_activated_hitboxes evs =
            (if d ≤ e + (ds.take (k + 1)).sum ∧
                (if k = 0 then f.active = false
                 else (f.active = false ∧ e + (ds.take k).sum < d))
             then B else [])) ∧
          (get_deactivated_hitboxes evs =
            (if t + d ≤ e + (ds.take (k + 1)).sum then B else []))) := by
  intro ds
  induction ds with
  | nil =>
    intro s frames f e hs hf hdl hdu hB hcoh hnn k fr evs hget
    simp [progressRun] at hget
  | cons delta rest ih =>
    intro s frames f e hs hf hdl hdu hB hcoh hnn k fr evs hget
    have step := progress_step s hb nm i frames f e delta hs hf
    have h0delta : 0 ≤ delta := hnn delta (List.mem_cons_self delta rest)
    have hnnrest : ∀ x ∈ rest, 0 ≤ x := fun x hx => hnn x (List.mem_cons_of_mem delta hx)
    cases k with
    | zero =>
      simp only [progressRun, List.get?_cons_zero, Option.some_inj, Prod.mk.injEq] at hget
      obtain ⟨hfr, hevs⟩ := hget
      subst hfr
      subst hevs
      refine ⟨by simp, fun _ => ⟨?_, ?_⟩⟩
      · rw [step.1, hdl, hB]
        simp
      · rw [step.2.1, hdl, hdu, hB]
        simp
    | succ k' =>
      simp only [progressRun, List.get?_cons_succ] at hget
      by_cases hdur : f.duration + f.delay ≤ e + delta
      · have hcur := step.2.2.1 hdur
        rw [hcur] at hget
        have hge : i + 1 ≤ fr := by
          simpa using progressRun_frame_ge hb rest _ _ k' fr evs hget
        have hfrne : ¬ fr = i := by omega
        have hsum0 : 0 ≤ (rest.take k').sum := take_sum_nonneg rest k' hnnrest
        refine ⟨⟨fun h => absurd h hfrne, fun h => ?_⟩, fun h => absurd h hfrne⟩
        rcases h with h | h
        · exact absurd h (Nat.succ_ne_zero k')
        · exfalso
          rw [List.take_succ_cons, List.sum_cons] at h
          have h1 : t + d ≤ e + delta := by
            rw [← hdl, ← hdu]
            exact hdur
          linarith
      · obtain ⟨hcur, frames1, f1, hs1, hf1, hdl1, hdu1, hn1, hns1, hact1⟩ :=
          step.2.2.2 hdur
        rw [hcur] at hget
        have hB1 : f1.get_hitboxes hb = B := by
          rw [get_hitboxes_congr f1 f hb hn1 hns1]
          exact hB
        have hstay : e + delta < t + d := by
          rw [← hdl, ← hdu]
          exact not_le.mp hdur
        have hcoh1 : f1.active = true → d ≤ e + delta := by
          intro hT
          rw [hact1, Bool.or_eq_true] at hT
          rcases hT with hT | hT
          · exact le_trans (hcoh hT) (by linarith)
          · have h2 := of_decide_eq_true hT
            rw [hdl] at h2
            exact h2
        have IH := ih ((ActiveSequenceData.progress ⟨nm, i, e⟩ s hb delta).2.1)
          frames1 f1 (e + delta) hs1 hf1 (hdl1.trans hdl) (hdu1.trans hdu) hB1 hcoh1
          hnnrest k' fr evs hget
        obtain ⟨IH1, IH2⟩ := IH
        have hE : ∀ m : Nat, e + delta + (rest.take m).sum =
            e + ((delta :: rest).take (m + 1)).sum := by
          intro m
          rw [List.take_succ_cons, List.sum_cons]
          ring
        have hfa : f1.active = false ↔ (f.active = false ∧ e + delta < d) := by
          rw [hact1, hdl]
          simp [not_le]
        constructor
        · rw [IH1]
          constructor
          · rintro (h | h)
            · subst h
              right
              simpa using hstay
            · right
              rw [← hE k']
              exact h
          · rintro (h | h)
            · exact absurd h (Nat.succ_ne_zero k')
            · right
              rw [hE k']
              exact h
        · intro hfr
          obtain ⟨IHa, IHd⟩ := IH2 hfr
          constructor
          · have hiff : (d ≤ e + delta + (rest.take (k' + 1)).sum ∧
                (if k' = 0 then f1.active = false
                 else (f1.active = false ∧ e + delta + (rest.take k').sum < d))) ↔
                (d ≤ e + ((delta :: rest).take (k' + 1 + 1)).sum ∧
                 (if k' + 1 = 0 then f.active = false
                  else (f.active = false ∧ e + ((delta :: rest).take (k' + 1)).sum < d))) := by
              rw [← hE (k' + 1), ← hE k', if_neg (Nat.succ_ne_zero k')]
              by_cases hk : k' = 0
              · subst hk
                rw [if_pos rfl]
                simp [hfa]
              · rw [if_neg hk]
                constructor
                · rintro ⟨h1, h2, h3⟩
                  exact ⟨h1, (hfa.mp h2).1, h3⟩
                · rintro ⟨h1, h2, h3⟩
                  have hY : e + delta ≤ e + delta + (rest.take k').sum := by
                    have := take_sum_nonneg rest k' hnnrest
                    linarith
                  exact ⟨h1, hfa.mpr ⟨h2, lt_of_le_of_lt hY h3⟩, h3⟩
            rw [IHa]
            exact if_congr hiff rfl rfl
          · rw [IHd, ← hE (k' + 1)]

/-- C7: during one playback of a timeline, for the frame entered fresh at
cursor elapsed `0` (flags reset, as `start_sequence` and frame advancement
leave them) and any sequence of nonnegative deltas, call `k` belongs to this
frame exactly while the cumulative elapsed time has not yet crossed
`duration + delay`; the frame's Activated batch is emitted exactly at the
first call whose cumulative elapsed time reaches `delay`, and its Deactivated
batch exactly at the first call whose cumulative elapsed time reaches
`duration + delay` (which is also the only call on this frame at or past that
bound, since the cursor then leaves the frame). -/
theorem c7_frame_events_fire_once (s : SeqMap) (hb : List (String × Entity)) (nm : String)
    (i : Nat) (frames : List HitboxSequenceFrame) (f : HitboxSequenceFrame) (ds : List ℚ)
    (hs : assocGet s nm = some frames) (hf : frames.get? i = some f)
    (ha : f.active = false) (hds : ∀ x ∈ ds, 0 ≤ x)
    (k fr : Nat) (evs : List HitboxSequenceEvent)
    (hget : (progressRun hb s ⟨nm, i, 0⟩ ds).get? k = some (fr, evs)) :
    (fr = i ↔ (k = 0 ∨ (ds.take k).sum < f.duration + f.delay)) ∧
    (fr = i →
      (get_activated_hitboxes evs =
        (if f.delay ≤ (ds.take (k + 1)).sum ∧ (k = 0 ∨ (ds.take k).sum < f.delay)
         then f.get_hitboxes hb else [])) ∧
      (get_deactivated_hitboxes evs =
        (if f.duration + f.delay ≤ (ds.take (k + 1)).sum
         then f.get_hitboxes hb else []))) := by
  have H := progressRun_char hb nm i (f.get_hitboxes hb) f.delay f.duration ds s frames f 0
    hs hf rfl rfl rfl (fun hT => absurd hT (by simp [ha])) hds k fr evs hget
  obtain ⟨H1, H2⟩ := H
  constructor
  · rw [H1]
    simp
  · intro hfr
    obtain ⟨Ha, Hd⟩ := H2 hfr
    refine ⟨?_, ?_⟩
    · rw [Ha]
      apply if_congr _ rfl rfl
      constructor
      · rintro ⟨h1, h2⟩
        refine ⟨by simpa using h1, ?_⟩
        by_cases hk : k = 0
        · exact Or.inl hk
        · rw [if_neg hk] at h2
          exact Or.inr (by simpa using h2.2)
      · rintro ⟨h1, h2⟩
        refine ⟨by simpa using h1, ?_⟩
        by_cases hk : k = 0
        · rw [if_pos hk]
          exact ha
        · rw [if_neg hk]
          rcases h2 with h2 | h2
          · exact absurd h2 hk
          · exact ⟨ha, by simpa using h2⟩
    · rw [Hd]
      apply if_congr _ rfl rfl
      constructor
      · intro h
        simpa using h
      · intro h
        simpa using h

/-- C7 witness: the spec scenario frame `{delay 0.2, duration 1.0, name "x"}`
ticked by `0.016` then `0.2`: the second call (cumulative `0.216 ≥ 0.2`)
carries the Activated batch and no Deactivated batch. -/
theorem c7_frame_events_fire_once_witness :
    ((0 : Nat) = 0 ↔ ((1 : Nat) = 0 ∨ (([2/125, 1/5] : List ℚ).take 1).sum <
      frameC7.duration + frameC7.delay)) ∧
    ((0 : Nat) = 0 →
      (get_activated_hitboxes [HitboxSequenceEvent.hitboxActivated 7] =
        (if frameC7.delay ≤ (([2/125, 1/5] : List ℚ).take (1 + 1)).sum ∧
            ((1 : Nat) = 0 ∨ (([2/125, 1/5] : List ℚ).take 1).sum < frameC7.delay)
         then frameC7.get_hitboxes hbC7 else [])) ∧
      (get_deactivated_hitboxes [HitboxSequenceEvent.hitboxActivated 7] =
        (if frameC7.duration + frameC7.delay ≤ (([2/125, 1/5] : List ℚ).take (1 + 1)).sum
         then frameC7.get_hitboxes hbC7 else []))) :=
  c7_frame_events_fire_once sC7 hbC7 "swing" 0 [frameC7] frameC7 [2/125, 1/5]
    rfl rfl rfl
    (by
      intro x hx
      simp at hx
      rcases hx with h | h <;> subst h <;> norm_num)
    1 0 [HitboxSequenceEvent.hitboxActivated 7]
    (by
      norm_num [progressRun, ActiveSequenceData.progress, getCurrentFrame,
        ActiveSequenceData.is_current_frame_active,
        ActiveSequenceData.get_current_active_hitboxes, sC7, hbC7, frameC7, assocGet,
        setFrame, assocModify, listModify, processTags, HitboxSequenceFrame.get_hitboxes])
